import Mathlib

/-!
# FFNx movie player (`src/video/movies.cpp`): a shallow embedding

The module keeps its whole state in global variables.  They are gathered in the
record `State`, together with the little of the outside world that the module
consumes step by step: the packets the open container will still deliver, and
how many times the performance counter, the texture allocator and the
renderer's defer hook have been called.  The answers of those collaborators
are the oracles of `Env`.  Renderer and audio-engine calls that the module
issues are recorded, in order, in `State.trace`.

`double` values are modelled by exact rationals, `uint32_t` by naturals reduced
modulo `2^32` where the source can wrap, `time_t` and `int` by integers.
-/

namespace FFNx

/-- The constant `VIDEO_BUFFER_SIZE` (line 28). -/
def VIDEO_BUFFER_SIZE : Nat := 10

/-- Number of values of a `uint32_t`. -/
def UINT32 : Nat := 4294967296

/-- Modelled from the spec: the decoding library's end-of-stream status, which
the spec distinguishes from a transient decode-unavailable status.  It is the
negative constant `AVERROR_EOF` of the decoding library's headers, which are
not part of the repository. -/
def AVERROR_EOF : Int := -541478725

/-- What the decoders answer for one compressed packet. -/
structure AVPacket where
  /-- Field `packet.stream_index`. -/
  stream_index : Int
  /-- Status of `avcodec_send_packet(codec_ctx, &packet)`. -/
  vsend : Int
  /-- Status of `avcodec_receive_frame(codec_ctx, movie_frame)`. -/
  vrecv : Int
  /-- Status of `avcodec_send_packet(acodec_ctx, &packet)`. -/
  asend : Int
  /-- Status of `avcodec_receive_frame(acodec_ctx, movie_frame)`. -/
  arecv : Int
  /-- Field `movie_frame->nb_samples` after an audio frame was received. -/
  nb_samples : Nat
  deriving DecidableEq, Repr

/-- One call of `av_read_frame`: its status and the packet it filled in. -/
structure FrameRead where
  ret : Int
  packet : AVPacket
  deriving DecidableEq, Repr

/-- The record `struct video_frame` (lines 46-49): three texture handles. -/
structure video_frame where
  yuv_textures : List Nat := [0, 0, 0]
  deriving DecidableEq, Repr

/-- Calls to the renderer and the audio engine, as they are issued. -/
inductive Event where
  /-- Function `buffer_yuv_frame` filled the slot. -/
  | push (slot : Nat)
  /-- Hook `gl_defer_yuv_frame(slot)` answered true: the draw was taken over. -/
  | defer (slot : Nat)
  /-- The quad of the slot was drawn by `draw_yuv_frame` itself. -/
  | draw (slot : Nat)
  /-- Call `nxAudioEngine.pushStreamData(buffer, size)`. -/
  | audio (size : Nat)
  /-- Call `nxAudioEngine.playStream()`. -/
  | play
  deriving DecidableEq, Repr

/-- The messages `ffmpeg_prepare_movie` sends to `ffnx_error`. -/
inductive PrepareError where
  | open_input
  | stream_info
  | no_video_stream
  | video_alloc
  | video_open
  | audio_alloc
  | audio_open
  | dimensions
  deriving DecidableEq, Repr

/-- The answers of the collaborators. -/
structure Env where
  /-- Reading of `QueryPerformanceCounter` at its n-th call. -/
  clock : Nat → Int
  /-- Handle returned by the n-th call of `newRenderer.createTexture`. -/
  createTexture : Nat → Nat
  /-- Answer of the n-th call of `gl_defer_yuv_frame`, given its argument. -/
  gl_defer_yuv_frame : Nat → Nat → Bool
  /-- The global `max_texture_size`. -/
  max_texture_size : Nat

/-- The module's globals (lines 32-65) and the consumed part of the world. -/
structure State where
  audio_must_be_converted : Bool := false
  format_ctx : Bool := false
  codec_ctx : Bool := false
  acodec_ctx : Bool := false
  movie_frame : Bool := false
  sws_ctx : Bool := false
  swr_ctx : Bool := false
  videostream : Int := 0
  audiostream : Int := 0
  video_buffer : List video_frame := List.replicate 10 {}
  vbuffer_read : Nat := 0
  vbuffer_write : Nat := 0
  movie_frame_counter : Nat := 0
  movie_frames : Nat := 0
  movie_width : Nat := 0
  movie_height : Nat := 0
  movie_fps : ℚ := 0
  movie_duration : ℚ := 0
  movie_jpeg_range : Bool := false
  first_audio_packet : Bool := false
  timer_freq : Int := 0
  start_time : Int := 0
  /-- Value of `av_get_bytes_per_sample(acodec_ctx->sample_fmt)`. -/
  sample_bytes : Nat := 0
  /-- Field `acodec_ctx->channels`. -/
  channels : Nat := 0
  /-- What `av_read_frame(format_ctx, ..)` will still answer, call by call;
  once the list is used up every further call answers `AVERROR_EOF`. -/
  reads : List FrameRead := []
  /-- Number of `QueryPerformanceCounter` calls made so far. -/
  polls : Nat := 0
  /-- Number of `createTexture` calls made so far. -/
  tex_calls : Nat := 0
  /-- Number of `gl_defer_yuv_frame` calls made so far. -/
  defer_calls : Nat := 0
  trace : List Event := []
  error_log : List PrepareError := []
  deriving DecidableEq

/-- Texture handle `video_buffer[i].yuv_textures[idx]`. -/
def State.texture (s : State) (i idx : Nat) : Nat :=
  ((s.video_buffer.getD i {}).yuv_textures).getD idx 0

/-- Function `upload_yuv_texture` (lines 289-308): the slot's plane `num` gets
the handle of a freshly created texture (the old one is deleted first). -/
def upload_yuv_texture (env : Env) (num buffer_index : Nat) (s : State) : State :=
  { s with
    video_buffer := s.video_buffer.set buffer_index
      { yuv_textures := ((s.video_buffer.getD buffer_index {}).yuv_textures).set num
          (env.createTexture s.tex_calls) }
    tex_calls := s.tex_calls + 1 }

/-- Function `buffer_yuv_frame` (lines 310-317). -/
def buffer_yuv_frame (env : Env) (s : State) : State :=
  let s1 := upload_yuv_texture env 0 s.vbuffer_write s
  let s2 := upload_yuv_texture env 1 s1.vbuffer_write s1
  let s3 := upload_yuv_texture env 2 s2.vbuffer_write s2
  { s3 with
    vbuffer_write := (s3.vbuffer_write + 1) % VIDEO_BUFFER_SIZE
    trace := s3.trace ++ [Event.push s3.vbuffer_write] }

/-- Record a call to the renderer or the audio engine. -/
def State.emit (e : Event) (s : State) : State := { s with trace := s.trace ++ [e] }

/-- One call of `QueryPerformanceCounter` whose reading goes to the local
variable `now`. -/
def State.poll_clock (s : State) : State := { s with polls := s.polls + 1 }

/-- The statement `QueryPerformanceCounter((LARGE_INTEGER *)&start_time)`. -/
def State.arm_start (env : Env) (s : State) : State :=
  { s with start_time := env.clock s.polls, polls := s.polls + 1 }

/-- The statement `vbuffer_read = (vbuffer_read + 1) % VIDEO_BUFFER_SIZE`. -/
def State.advance_read (s : State) : State :=
  { s with vbuffer_read := (s.vbuffer_read + 1) % VIDEO_BUFFER_SIZE }

/-- The container's position after the packet loop: what it will still
deliver. -/
def State.set_reads (rest : List FrameRead) (s : State) : State := { s with reads := rest }

/-- The clock calls made by the frame limiter. -/
def State.set_polls (polls : Nat) (s : State) : State := { s with polls := polls }

/-- The statement `movie_frame_counter++` on a `uint32_t`. -/
def State.count_frame (s : State) : State :=
  { s with movie_frame_counter := (s.movie_frame_counter + 1) % UINT32 }

/-- Function `draw_yuv_frame` (lines 319-333): it returns nothing, whether the
hook deferred the frame or the quad was drawn. -/
def draw_yuv_frame (env : Env) (buffer_index : Nat) (s : State) : State :=
  if env.gl_defer_yuv_frame s.defer_calls buffer_index then
    { s with defer_calls := s.defer_calls + 1 }.emit (Event.defer buffer_index)
  else
    { s with defer_calls := s.defer_calls + 1 }.emit (Event.draw buffer_index)

/-- Lines 392-397 and 468-470: present the slot under the read cursor, then
advance the read cursor. -/
def present_oldest (env : Env) (s : State) : State :=
  (draw_yuv_frame env s.vbuffer_read s).advance_read

/-- Video branch of the packet loop (lines 351-403).  The first component is
`some ret` when the branch leaves the loop by `break` with that `ret`.  With or
without a converter (`sws_ctx`) the decoded picture goes to
`buffer_yuv_frame`. -/
def video_packet (env : Env) (p : AVPacket) (s : State) : Option Int × State :=
  if p.stream_index = s.videostream then
    if p.vsend < 0 then (some p.vsend, s)
    else if p.vrecv = AVERROR_EOF then (some p.vrecv, s)
    else if 0 ≤ p.vrecv then
      if (buffer_yuv_frame env s.poll_clock).vbuffer_write
          = (buffer_yuv_frame env s.poll_clock).vbuffer_read then
        (some p.vrecv, present_oldest env (buffer_yuv_frame env s.poll_clock))
      else (none, buffer_yuv_frame env s.poll_clock)
    else (none, s)
  else (none, s)

/-- The value `_size` of line 430, a `uint32_t`; `av_get_bytes_per_sample` of
the float format is 4. -/
def audio_size (p : AVPacket) (s : State) : Nat :=
  ((if s.audio_must_be_converted then 4 else s.sample_bytes) * p.nb_samples * s.channels) % UINT32

/-- Audio branch of the packet loop (lines 405-446). -/
def audio_packet (p : AVPacket) (s : State) : Option Int × State :=
  if p.stream_index = s.audiostream then
    if p.asend < 0 then (some p.asend, s.poll_clock)
    else if p.arecv = AVERROR_EOF then (some p.arecv, s.poll_clock)
    else if 0 ≤ p.arecv then
      if audio_size p s ≠ 0 then (none, s.poll_clock.emit (Event.audio (audio_size p s)))
      else (none, s.poll_clock)
    else (none, s.poll_clock)
  else (none, s)

/-- The packet loop (lines 349-449) over the answers `av_read_frame` still has
to give.  It returns the value of `ret` on leaving the loop, the answers not
yet consumed, and the state. -/
def read_loop (env : Env) : List FrameRead → State → Int × List FrameRead × State
  | [], s => (AVERROR_EOF, [], s)
  | r :: rest, s =>
    if r.ret < 0 then (r.ret, rest, s)
    else
      match video_packet env r.packet s with
      | (some ret, s1) => (ret, rest, s1)
      | (none, s1) =>
        match audio_packet r.packet s1 with
        | (some ret, s2) => (ret, rest, s2)
        | (none, s2) => read_loop env rest s2

/-- The macro `LAG` (line 30), over exact rationals; `timer_freq / 1000` is the
integer division of two `time_t` values.  The rationals stand for the code's
`double` values only where no division by zero occurs, that is for a non-zero
`movie_fps` and a `timer_freq` of at least 1000: at `movie_fps = 0` the code's
frame period is infinite and its limiter never exits, while a rational
quotient by 0 is 0.  Every fact below that rests on the value of `LAG` has
`0 < movie_fps` and `1000 ≤ timer_freq` among its hypotheses. -/
def LAG (now start_time timer_freq : Int) (movie_fps : ℚ) (movie_frame_counter : Nat) : ℚ :=
  ((((now - start_time : Int) : ℚ)) - ((timer_freq : ℚ) / movie_fps) * (movie_frame_counter : ℚ))
    / (((Int.tdiv timer_freq 1000 : Int)) : ℚ)

/-- The frame limiter (lines 480-483): poll the clock until `LAG` is not
negative.  `fuel` bounds the number of polls; the result is the number of
clock calls made when the loop exits, `none` when it is still waiting. -/
def wait_loop (env : Env) (s : State) : Nat → Nat → Option Nat
  | 0, _ => none
  | fuel + 1, polls =>
    if LAG (env.clock polls) s.start_time s.timer_freq s.movie_fps s.movie_frame_counter < 0 then
      wait_loop env s fuel (polls + 1)
    else some (polls + 1)

/-- Lines 451-459 of `ffmpeg_update_movie_sample`: the first audio packet
re-arms the start time and starts the audio stream. -/
def first_audio (env : Env) (s : State) : State :=
  if s.first_audio_packet then
    ({ s with first_audio_packet := false }.arm_start env).emit Event.play
  else s

/-- Lines 463-474 of `ffmpeg_update_movie_sample`, entered with the `ret` left
by the packet loop.  The first component is false when the tick returns false
at line 473. -/
def drain (env : Env) (ret : Int) (s : State) : Bool × State :=
  if ret < 0 then
    if s.vbuffer_write ≠ s.vbuffer_read then
      if (present_oldest env s).vbuffer_write = (present_oldest env s).vbuffer_read then
        (false, present_oldest env s)
      else (true, present_oldest env s)
    else (false, s)
  else (true, s)

/-- Lines 347-449 of `ffmpeg_update_movie_sample`: arm the start time on frame
0, then run the packet loop over the container. -/
def read_packets (env : Env) (s : State) : Int × State :=
  let s1 := if s.movie_frame_counter = 0 then s.arm_start env else s
  let r := read_loop env s1.reads s1
  (r.1, r.2.2.set_reads r.2.1)

/-- Lines 347-474 of `ffmpeg_update_movie_sample`, for an open session: all of
the tick up to the frame limiter. -/
def tick_body (env : Env) (s : State) : Bool × State :=
  drain env (read_packets env s).1 (first_audio env (read_packets env s).2).count_frame

/-- Function `ffmpeg_update_movie_sample` (lines 336-488).  The result is
`none` when the frame limiter has not let the tick return after `fuel` polls
of the clock. -/
def ffmpeg_update_movie_sample (env : Env) (fuel : Nat) (use_movie_fps : Bool) (s : State) :
    Option (Bool × State) :=
  if s.format_ctx = false then some (false, s)
  else
    match tick_body env s with
    | (false, s1) => some (false, s1)
    | (true, s1) =>
      if use_movie_fps then
        match wait_loop env s1 fuel s1.polls with
        | none => none
        | some polls => some (true, s1.set_polls polls)
      else some (true, s1)

/-- The argument `(vbuffer_read - 1) % VIDEO_BUFFER_SIZE` of line 493, computed
on `uint32_t`: the subtraction wraps modulo `2^32`. -/
def current_frame_index (vbuffer_read : Nat) : Nat :=
  ((vbuffer_read + UINT32 - 1) % UINT32) % VIDEO_BUFFER_SIZE

/-- Function `ffmpeg_draw_current_frame` (lines 491-494). -/
def ffmpeg_draw_current_frame (env : Env) (s : State) : State :=
  draw_yuv_frame env (current_frame_index s.vbuffer_read) s

/-- The caller's loop: `n` successive ticks, with the values they returned.
The result is `none` when one of the ticks did not return within `fuel` polls
of the clock. -/
def run_ticks (env : Env) (fuel : Nat) (use_movie_fps : Bool) :
    Nat → State → Option (List Bool × State)
  | 0, s => some ([], s)
  | n + 1, s =>
    match ffmpeg_update_movie_sample env fuel use_movie_fps s with
    | none => none
    | some (r, s1) =>
      match run_ticks env fuel use_movie_fps n s1 with
      | none => none
      | some (rs, s2) => some (r :: rs, s2)

/-- The slot an event hands to the renderer for presentation, if it does:
the argument of `draw_yuv_frame`, deferred by the hook or drawn at once. -/
def Event.presented : Event → Option Nat
  | Event.defer k => some k
  | Event.draw k => some k
  | _ => none

/-- The slots handed to the renderer for presentation, in order. -/
def presentations (trace : List Event) : List Nat := trace.filterMap Event.presented

/-- Operations on the ring buffer: a slot is filled, or the slot is handed to
the renderer for presentation, which the hook deferred or not. -/
inductive RingOp where
  | push (slot : Nat)
  | present (slot : Nat) (deferred : Bool)
  deriving DecidableEq, Repr

/-- The ring-buffer operation an event stands for, if any. -/
def Event.ring_op : Event → Option RingOp
  | Event.push k => some (RingOp.push k)
  | Event.defer k => some (RingOp.present k true)
  | Event.draw k => some (RingOp.present k false)
  | _ => none

/-- The pushes and presentations of a trace, in order. -/
def ring_ops (trace : List Event) : List RingOp := trace.filterMap Event.ring_op

/-- Function `ffmpeg_release_movie_objects` (lines 75-107).  The closed
container delivers nothing any more. -/
def ffmpeg_release_movie_objects (s : State) : State :=
  { s with
    movie_frame := false
    codec_ctx := false
    acodec_ctx := false
    format_ctx := false
    swr_ctx := false
    audio_must_be_converted := false
    video_buffer := s.video_buffer.map
      (fun f => { yuv_textures := f.yuv_textures.map (fun _ => 0) })
    reads := [] }

/-- What the decoding library finds in the file given to
`ffmpeg_prepare_movie`. -/
structure MovieFile where
  /-- Status of `avformat_open_input`. -/
  open_ret : Int
  /-- Status of `avformat_find_stream_info`. -/
  stream_info_ret : Int
  /-- Result of `av_find_best_stream` for the video type. -/
  videostream : Int
  /-- Result of `av_find_best_stream` for the audio type. -/
  audiostream : Int
  /-- Whether `avcodec_alloc_context3(codec)` returned a context. -/
  video_alloc : Bool
  /-- Status of `avcodec_open2(codec_ctx, codec, NULL)`. -/
  video_open_ret : Int
  /-- Whether `avcodec_alloc_context3(acodec)` returned a context. -/
  audio_alloc : Bool
  /-- Status of `avcodec_open2(acodec_ctx, acodec, NULL)`. -/
  audio_open_ret : Int
  /-- Field `codec_ctx->width`. -/
  width : Nat
  /-- Field `codec_ctx->height`. -/
  height : Nat
  /-- Value of `av_q2d(av_guess_frame_rate(..))`. -/
  fps : ℚ
  /-- Value of `format_ctx->duration / AV_TIME_BASE`. -/
  duration : ℚ
  /-- Whether `codec_ctx->color_range` is `AVCOL_RANGE_JPEG`. -/
  color_range_jpeg : Bool
  /-- Whether `codec_ctx->pix_fmt` is `AV_PIX_FMT_YUVJ420P`. -/
  pix_fmt_yuvj420p : Bool
  /-- Whether `acodec_ctx->sample_fmt` is `AV_SAMPLE_FMT_FLT`. -/
  sample_fmt_flt : Bool
  /-- Value of `av_get_bytes_per_sample(acodec_ctx->sample_fmt)`. -/
  sample_bytes : Nat
  /-- Field `acodec_ctx->channels`. -/
  channels : Nat
  /-- What `av_read_frame` will answer on this container, call by call. -/
  packets : List FrameRead

/-- The C function `round` on rationals: to nearest, halves away from zero. -/
def c_round (q : ℚ) : Int :=
  if 0 ≤ q then Int.floor (q + 1 / 2) else -Int.floor (-q + 1 / 2)

/-- The conversion `(uint32_t)` of an integral value. -/
def to_uint32 (z : Int) : Nat := (z % (UINT32 : Int)).toNat

/-- The label `exit` of `ffmpeg_prepare_movie` (lines 277-280). -/
def prepare_exit (s : State) : Nat × State :=
  (s.movie_frames, { s with movie_frame_counter := 0 })

/-- A failing stage of `ffmpeg_prepare_movie`: the message goes to
`ffnx_error`, the objects are released, control goes to `exit`. -/
def prepare_fail (e : PrepareError) (s : State) : Nat × State :=
  prepare_exit (ffmpeg_release_movie_objects { s with error_log := e :: s.error_log })

/-- Lines 176-275 of `ffmpeg_prepare_movie`: the decoders are open. -/
def prepare_opened (env : Env) (m : MovieFile) (s : State) : Nat × State :=
  let s1 := { s with
    movie_width := m.width % UINT32
    movie_height := m.height % UINT32
    movie_fps := m.fps
    movie_duration := m.duration
    movie_frames := to_uint32 (c_round (m.fps * m.duration))
    movie_jpeg_range := m.color_range_jpeg }
  if s1.movie_width > env.max_texture_size ∨ s1.movie_height > env.max_texture_size then
    prepare_fail PrepareError.dimensions s1
  else
    let s2 := { s1 with movie_frame := true, vbuffer_read := 0, vbuffer_write := 0 }
    let s3 := if m.pix_fmt_yuvj420p = false then
        { s2 with sws_ctx := true, movie_jpeg_range := true } else { s2 with sws_ctx := false }
    let s4 := if 0 ≤ s3.audiostream then
        let s' := if m.sample_fmt_flt = false then
            { s3 with audio_must_be_converted := true, swr_ctx := true } else s3
        { s' with first_audio_packet := true } else s3
    prepare_exit s4

/-- Lines 157-174 of `ffmpeg_prepare_movie`: the audio decoder, when the
container has an audio stream. -/
def prepare_audio (env : Env) (m : MovieFile) (s : State) : Nat × State :=
  if 0 ≤ s.audiostream then
    let s1 := { s with acodec_ctx := m.audio_alloc }
    if s1.acodec_ctx = false then
      prepare_fail PrepareError.audio_alloc { s1 with codec_ctx := false }
    else
      let s2 := { s1 with sample_bytes := m.sample_bytes, channels := m.channels }
      if m.audio_open_ret < 0 then prepare_fail PrepareError.audio_open s2
      else prepare_opened env m s2
  else prepare_opened env m s

/-- Function `ffmpeg_prepare_movie` (lines 110-281).  The argument
`with_audio` (here `_with_audio`) only selects a trace message. -/
def ffmpeg_prepare_movie (env : Env) (m : MovieFile) (_with_audio : Bool) (s : State) :
    Nat × State :=
  if m.open_ret ≠ 0 then
    prepare_fail PrepareError.open_input { s with format_ctx := false }
  else
    let s1 := { s with format_ctx := true, reads := m.packets }
    if m.stream_info_ret < 0 then prepare_fail PrepareError.stream_info s1
    else
      let s2 := { s1 with videostream := m.videostream }
      if s2.videostream < 0 then prepare_fail PrepareError.no_video_stream s2
      else
        let s3 := { s2 with audiostream := m.audiostream }
        let s4 := { s3 with codec_ctx := m.video_alloc }
        if s4.codec_ctx = false then prepare_fail PrepareError.video_alloc s4
        else if m.video_open_ret < 0 then prepare_fail PrepareError.video_open s4
        else prepare_audio env m s4

/-! ## Notions used to state the properties -/

/-- The globals that neither the packet loop nor a presentation writes. -/
def State.globals (s : State) :=
  (s.audio_must_be_converted, s.format_ctx, s.codec_ctx, s.acodec_ctx, s.movie_frame, s.sws_ctx,
   s.swr_ctx, s.videostream, s.audiostream, s.movie_frame_counter, s.movie_frames, s.movie_width,
   s.movie_height, s.movie_fps, s.movie_duration, s.movie_jpeg_range, s.first_audio_packet,
   s.timer_freq, s.start_time, s.sample_bytes, s.channels, s.error_log)

/-- The part of the state that describes the loaded movie; a tick does not
write it. -/
def State.session (s : State) :=
  (s.audio_must_be_converted, s.format_ctx, s.codec_ctx, s.acodec_ctx, s.movie_frame, s.sws_ctx,
   s.swr_ctx, s.videostream, s.audiostream, s.movie_frames, s.movie_width,
   s.movie_height, s.movie_fps, s.movie_duration, s.movie_jpeg_range,
   s.timer_freq, s.sample_bytes, s.channels, s.error_log)

/-- What the statements between two points of a tick did to the read cursor:
the events they added, and whether they made a presentation request. -/
def Quiet (s s' : State) : Prop :=
  ∃ evs, s'.trace = s.trace ++ evs ∧ presentations evs = [] ∧
    s'.vbuffer_read = s.vbuffer_read ∧ s'.defer_calls = s.defer_calls

/-- One presentation request, for the slot under the read cursor, was made. -/
def Presented (env : Env) (s s' : State) : Prop :=
  ∃ evs, s'.trace = s.trace ++ evs ∧ presentations evs = [s.vbuffer_read] ∧
    (if env.gl_defer_yuv_frame s.defer_calls s.vbuffer_read then Event.defer s.vbuffer_read
      else Event.draw s.vbuffer_read) ∈ evs ∧
    s'.vbuffer_read = (s.vbuffer_read + 1) % VIDEO_BUFFER_SIZE ∧
    s'.defer_calls = s.defer_calls + 1

/-- The clock readings grow beyond every bound: time passes. -/
def clock_unbounded (env : Env) : Prop := ∀ (n : Nat) (t : Int), ∃ i, n ≤ i ∧ t ≤ env.clock i

/-- Lines 451-488 of `ffmpeg_update_movie_sample`: the tick after its packet
loop has left `ret`. -/
def tick_after_loop (env : Env) (fuel : Nat) (use_movie_fps : Bool) (ret : Int) (s : State) :
    Option (Bool × State) :=
  match drain env ret (first_audio env s).count_frame with
  | (false, s1) => some (false, s1)
  | (true, s1) =>
    if use_movie_fps then
      match wait_loop env s1 fuel s1.polls with
      | none => none
      | some polls => some (true, s1.set_polls polls)
    else some (true, s1)

/-- The start state of the packet loop: the start time is armed on frame 0. -/
def loop_start (env : Env) (s : State) : State :=
  if s.movie_frame_counter = 0 then s.arm_start env else s

/-- The state in which a tick reaches line 463, after its packet loop. -/
def before_drain (env : Env) (s : State) : State :=
  (first_audio env (read_packets env s).2).count_frame

/-- The stages at which `ffmpeg_prepare_movie` gives up before it has read the
movie's metadata, on the answers of the decoding library (the conditions of
lines 117, 124, 132, 142, 150 and 157-168). -/
def prepare_fails_early (m : MovieFile) : Prop :=
  m.open_ret ≠ 0 ∨ m.stream_info_ret < 0 ∨ m.videostream < 0 ∨ m.video_alloc = false ∨
  m.video_open_ret < 0 ∨ (0 ≤ m.audiostream ∧ (m.audio_alloc = false ∨ m.audio_open_ret < 0))

/-- The dimension check of line 190. -/
def exceeds_max_texture_size (env : Env) (m : MovieFile) : Prop :=
  m.width % UINT32 > env.max_texture_size ∨ m.height % UINT32 > env.max_texture_size

/-- The call gives up at one of its stages. -/
def prepare_fails (env : Env) (m : MovieFile) : Prop :=
  prepare_fails_early m ∨ exceeds_max_texture_size env m

/-- A read without error: `av_read_frame` succeeds, and the decoder of the
packet's stream neither rejects the packet nor reports the end of the stream. -/
def clean_read (vs as : Int) (r : FrameRead) : Prop :=
  0 ≤ r.ret ∧
  (r.packet.stream_index = vs → 0 ≤ r.packet.vsend ∧ r.packet.vrecv ≠ AVERROR_EOF) ∧
  (r.packet.stream_index = as → 0 ≤ r.packet.asend ∧ r.packet.arecv ≠ AVERROR_EOF)

instance (vs as : Int) (r : FrameRead) : Decidable (clean_read vs as r) := by
  unfold clean_read; infer_instance

/-- The read delivers a packet of the video stream that decodes to a picture. -/
def decodable (vs : Int) (r : FrameRead) : Bool :=
  decide (r.packet.stream_index = vs) && decide (0 ≤ r.packet.vrecv)

/-- The pushes of `k` pictures in a row, the first into slot `w`. -/
def pushes : Nat → Nat → List RingOp
  | _, 0 => []
  | w, k + 1 => RingOp.push w :: pushes ((w + 1) % VIDEO_BUFFER_SIZE) k

/-- The statements between two points left the ring buffer alone. -/
def SameRing (s s' : State) : Prop :=
  s'.globals = s.globals ∧ ring_ops s'.trace = ring_ops s.trace ∧
  s'.vbuffer_read = s.vbuffer_read ∧ s'.vbuffer_write = s.vbuffer_write ∧
  s'.defer_calls = s.defer_calls

/-- After the statements, `k` more pictures are buffered and none was
presented. -/
def Buffered (s f : State) (k : Nat) : Prop :=
  ring_ops f.trace = ring_ops s.trace ++ pushes s.vbuffer_write k ∧
  f.vbuffer_read = s.vbuffer_read ∧
  f.vbuffer_write = (s.vbuffer_write + k) % VIDEO_BUFFER_SIZE ∧
  f.defer_calls = s.defer_calls ∧ f.globals = s.globals

/-- After the statements, `n` more pictures are buffered, which filled the
ring, and the slot under the read cursor was presented. -/
def Filled (env : Env) (s f : State) (n : Nat) : Prop :=
  ring_ops f.trace = ring_ops s.trace ++ pushes s.vbuffer_write n ++
    [RingOp.present s.vbuffer_read (env.gl_defer_yuv_frame s.defer_calls s.vbuffer_read)] ∧
  f.vbuffer_read = (s.vbuffer_read + 1) % VIDEO_BUFFER_SIZE ∧
  f.vbuffer_write = s.vbuffer_read ∧
  f.defer_calls = s.defer_calls + 1 ∧ f.globals = s.globals

/-- What a tick did to the ring buffer, as the caller and the renderer see it. -/
structure RingView where
  ops : List RingOp
  read : Nat
  write : Nat
  defer_calls : Nat
  reads : List FrameRead
  deriving DecidableEq

/-- The ring buffer of a state. -/
def State.ring (s : State) : RingView :=
  { ops := ring_ops s.trace, read := s.vbuffer_read, write := s.vbuffer_write,
    defer_calls := s.defer_calls, reads := s.reads }

/-- One ring-buffer operation on the list of slots that hold a picture not yet
presented, with the flag that no push so far went into such a slot. -/
def ring_step (st : List Nat × Bool) : RingOp → List Nat × Bool
  | RingOp.push k => (k :: st.1, st.2 && !(st.1.contains k))
  | RingOp.present k _ => (st.1.filter (fun j => j != k), st.2)

/-- The slots pending after the operations, and whether no push overwrote a
pending slot. -/
def ring_check (ops : List RingOp) : List Nat × Bool := ops.foldl ring_step ([], true)

/-- No push of the trace went into a slot whose picture was not yet presented. -/
def no_overwrite (ops : List RingOp) : Bool := (ring_check ops).2

/-- The pending slots are those from the read cursor up to the write cursor,
and no push overwrote a pending slot. -/
def RingInv (ops : List RingOp) (r w : Nat) : Prop :=
  (ring_check ops).2 = true ∧ r < 10 ∧ w < 10 ∧
  ∀ k, k ∈ (ring_check ops).1 ↔ k < 10 ∧ (k + 10 - r) % 10 < (w + 10 - r) % 10

/-- The invariant on a state. -/
def State.ring_inv (s : State) : Prop :=
  RingInv (ring_ops s.trace) s.vbuffer_read s.vbuffer_write

/-! ## Concrete inputs -/

/-- A read that delivers a video packet of stream `vs` decoding to a picture. -/
def video_read (vs : Int) : FrameRead :=
  { ret := 0, packet := { stream_index := vs, vsend := 0, vrecv := 0, asend := 0, arecv := 0,
                          nb_samples := 0 } }

/-- A read that delivers a video packet of stream `vs` which the decoder
rejects. -/
def rejected_read (vs : Int) : FrameRead :=
  { ret := 0, packet := { stream_index := vs, vsend := -22, vrecv := 0, asend := 0, arecv := 0,
                          nb_samples := 0 } }

/-- A renderer that never defers; the clock advances 1000 counts per poll. -/
def plain_env : Env :=
  { clock := fun n => 1000 * (n : Int)
    createTexture := fun n => n + 1
    gl_defer_yuv_frame := fun _ _ => false
    max_texture_size := 4096 }

/-- A renderer whose hook defers every presentation. -/
def deferring_env : Env :=
  { clock := fun n => 1000 * (n : Int)
    createTexture := fun n => n + 1
    gl_defer_yuv_frame := fun _ _ => true
    max_texture_size := 4096 }

/-- An open session on video stream 0 with no audio stream, 15 frames per
second, a timer of 10 MHz, and the given cursors and container content. -/
def open_session (read write : Nat) (reads : List FrameRead) : State :=
  { format_ctx := true, codec_ctx := true, movie_frame := true, videostream := 0,
    audiostream := -1, movie_fps := 15, timer_freq := 10000000,
    vbuffer_read := read, vbuffer_write := write, reads := reads }

/-- A movie of 320x224 at 15 frames per second lasting 10 seconds, one video
stream already in the renderer's pixel format, no audio stream. -/
def sample_movie : MovieFile :=
  { open_ret := 0, stream_info_ret := 0, videostream := 0, audiostream := -1,
    video_alloc := true, video_open_ret := 0, audio_alloc := true, audio_open_ret := 0,
    width := 320, height := 224, fps := 15, duration := 10, color_range_jpeg := true,
    pix_fmt_yuvj420p := true, sample_fmt_flt := true, sample_bytes := 4, channels := 2,
    packets := List.replicate 150 (video_read 0) }

/-- The sample movie in a file that cannot be opened. -/
def unreadable_movie : MovieFile := { sample_movie with open_ret := -2 }

/-- The sample movie with a width above the maximum texture size. -/
def oversize_movie : MovieFile := { sample_movie with width := 8192 }

/-- The sample movie in a pixel format that needs a converter. -/
def converted_movie : MovieFile := { sample_movie with pix_fmt_yuvj420p := false }

/-- The module before any movie was loaded: every global at its initial value. -/
def initial_state : State := {}

/-! ## Basic facts about the single statements -/

theorem AVERROR_EOF_neg : AVERROR_EOF < 0 := by decide

@[simp] theorem emit_globals (e : Event) (s : State) :
    (s.emit e).globals = s.globals := by
  unfold State.emit; rfl

@[simp] theorem emit_vbuffer_read (e : Event) (s : State) :
    (s.emit e).vbuffer_read = s.vbuffer_read := by
  unfold State.emit; rfl

@[simp] theorem emit_vbuffer_write (e : Event) (s : State) :
    (s.emit e).vbuffer_write = s.vbuffer_write := by
  unfold State.emit; rfl

@[simp] theorem emit_trace (e : Event) (s : State) :
    (s.emit e).trace = s.trace ++ [e] := by
  unfold State.emit; rfl

@[simp] theorem emit_defer_calls (e : Event) (s : State) :
    (s.emit e).defer_calls = s.defer_calls := by
  unfold State.emit; rfl

@[simp] theorem emit_polls (e : Event) (s : State) :
    (s.emit e).polls = s.polls := by
  unfold State.emit; rfl

@[simp] theorem emit_reads (e : Event) (s : State) :
    (s.emit e).reads = s.reads := by
  unfold State.emit; rfl

@[simp] theorem poll_clock_globals (s : State) :
    (s.poll_clock).globals = s.globals := by
  unfold State.poll_clock; rfl

@[simp] theorem poll_clock_vbuffer_read (s : State) :
    (s.poll_clock).vbuffer_read = s.vbuffer_read := by
  unfold State.poll_clock; rfl

@[simp] theorem poll_clock_vbuffer_write (s : State) :
    (s.poll_clock).vbuffer_write = s.vbuffer_write := by
  unfold State.poll_clock; rfl

@[simp] theorem poll_clock_trace (s : State) :
    (s.poll_clock).trace = s.trace := by
  unfold State.poll_clock; rfl

@[simp] theorem poll_clock_defer_calls (s : State) :
    (s.poll_clock).defer_calls = s.defer_calls := by
  unfold State.poll_clock; rfl

@[simp] theorem poll_clock_polls (s : State) :
    (s.poll_clock).polls = s.polls + 1 := by
  unfold State.poll_clock; rfl

@[simp] theorem poll_clock_reads (s : State) :
    (s.poll_clock).reads = s.reads := by
  unfold State.poll_clock; rfl

@[simp] theorem advance_read_globals (s : State) :
    (s.advance_read).globals = s.globals := by
  unfold State.advance_read; rfl

@[simp] theorem advance_read_vbuffer_read (s : State) :
    (s.advance_read).vbuffer_read = (s.vbuffer_read + 1) % VIDEO_BUFFER_SIZE := by
  unfold State.advance_read; rfl

@[simp] theorem advance_read_vbuffer_write (s : State) :
    (s.advance_read).vbuffer_write = s.vbuffer_write := by
  unfold State.advance_read; rfl

@[simp] theorem advance_read_trace (s : State) :
    (s.advance_read).trace = s.trace := by
  unfold State.advance_read; rfl

@[simp] theorem advance_read_defer_calls (s : State) :
    (s.advance_read).defer_calls = s.defer_calls := by
  unfold State.advance_read; rfl

@[simp] theorem advance_read_polls (s : State) :
    (s.advance_read).polls = s.polls := by
  unfold State.advance_read; rfl

@[simp] theorem advance_read_reads (s : State) :
    (s.advance_read).reads = s.reads := by
  unfold State.advance_read; rfl

@[simp] theorem buffer_yuv_frame_globals (env : Env) (s : State) :
    (buffer_yuv_frame env s).globals = s.globals := by
  unfold buffer_yuv_frame; rfl

@[simp] theorem buffer_yuv_frame_vbuffer_read (env : Env) (s : State) :
    (buffer_yuv_frame env s).vbuffer_read = s.vbuffer_read := by
  unfold buffer_yuv_frame; rfl

@[simp] theorem buffer_yuv_frame_vbuffer_write (env : Env) (s : State) :
    (buffer_yuv_frame env s).vbuffer_write = (s.vbuffer_write + 1) % VIDEO_BUFFER_SIZE := by
  unfold buffer_yuv_frame; rfl

@[simp] theorem buffer_yuv_frame_trace (env : Env) (s : State) :
    (buffer_yuv_frame env s).trace = s.trace ++ [Event.push s.vbuffer_write] := by
  unfold buffer_yuv_frame; rfl

@[simp] theorem buffer_yuv_frame_defer_calls (env : Env) (s : State) :
    (buffer_yuv_frame env s).defer_calls = s.defer_calls := by
  unfold buffer_yuv_frame; rfl

@[simp] theorem buffer_yuv_frame_polls (env : Env) (s : State) :
    (buffer_yuv_frame env s).polls = s.polls := by
  unfold buffer_yuv_frame; rfl

@[simp] theorem buffer_yuv_frame_reads (env : Env) (s : State) :
    (buffer_yuv_frame env s).reads = s.reads := by
  unfold buffer_yuv_frame; rfl

@[simp] theorem arm_start_vbuffer_read (env : Env) (s : State) :
    (s.arm_start env).vbuffer_read = s.vbuffer_read := by
  unfold State.arm_start; rfl

@[simp] theorem arm_start_vbuffer_write (env : Env) (s : State) :
    (s.arm_start env).vbuffer_write = s.vbuffer_write := by
  unfold State.arm_start; rfl

@[simp] theorem arm_start_trace (env : Env) (s : State) :
    (s.arm_start env).trace = s.trace := by
  unfold State.arm_start; rfl

@[simp] theorem arm_start_defer_calls (env : Env) (s : State) :
    (s.arm_start env).defer_calls = s.defer_calls := by
  unfold State.arm_start; rfl

@[simp] theorem arm_start_polls (env : Env) (s : State) :
    (s.arm_start env).polls = s.polls + 1 := by
  unfold State.arm_start; rfl

@[simp] theorem arm_start_reads (env : Env) (s : State) :
    (s.arm_start env).reads = s.reads := by
  unfold State.arm_start; rfl

@[simp] theorem count_frame_vbuffer_read (s : State) :
    (s.count_frame).vbuffer_read = s.vbuffer_read := by
  unfold State.count_frame; rfl

@[simp] theorem count_frame_vbuffer_write (s : State) :
    (s.count_frame).vbuffer_write = s.vbuffer_write := by
  unfold State.count_frame; rfl

@[simp] theorem count_frame_trace (s : State) :
    (s.count_frame).trace = s.trace := by
  unfold State.count_frame; rfl

@[simp] theorem count_frame_defer_calls (s : State) :
    (s.count_frame).defer_calls = s.defer_calls := by
  unfold State.count_frame; rfl

@[simp] theorem count_frame_polls (s : State) :
    (s.count_frame).polls = s.polls := by
  unfold State.count_frame; rfl

@[simp] theorem count_frame_reads (s : State) :
    (s.count_frame).reads = s.reads := by
  unfold State.count_frame; rfl

@[simp] theorem set_reads_globals (rest : List FrameRead) (s : State) :
    (s.set_reads rest).globals = s.globals := by
  unfold State.set_reads; rfl

@[simp] theorem set_reads_vbuffer_read (rest : List FrameRead) (s : State) :
    (s.set_reads rest).vbuffer_read = s.vbuffer_read := by
  unfold State.set_reads; rfl

@[simp] theorem set_reads_vbuffer_write (rest : List FrameRead) (s : State) :
    (s.set_reads rest).vbuffer_write = s.vbuffer_write := by
  unfold State.set_reads; rfl

@[simp] theorem set_reads_trace (rest : List FrameRead) (s : State) :
    (s.set_reads rest).trace = s.trace := by
  unfold State.set_reads; rfl

@[simp] theorem set_reads_defer_calls (rest : List FrameRead) (s : State) :
    (s.set_reads rest).defer_calls = s.defer_calls := by
  unfold State.set_reads; rfl

@[simp] theorem set_reads_polls (rest : List FrameRead) (s : State) :
    (s.set_reads rest).polls = s.polls := by
  unfold State.set_reads; rfl

@[simp] theorem set_reads_reads (rest : List FrameRead) (s : State) :
    (s.set_reads rest).reads = rest := by
  unfold State.set_reads; rfl

@[simp] theorem set_polls_globals (polls : Nat) (s : State) :
    (s.set_polls polls).globals = s.globals := by
  unfold State.set_polls; rfl

@[simp] theorem set_polls_vbuffer_read (polls : Nat) (s : State) :
    (s.set_polls polls).vbuffer_read = s.vbuffer_read := by
  unfold State.set_polls; rfl

@[simp] theorem set_polls_vbuffer_write (polls : Nat) (s : State) :
    (s.set_polls polls).vbuffer_write = s.vbuffer_write := by
  unfold State.set_polls; rfl

@[simp] theorem set_polls_trace (polls : Nat) (s : State) :
    (s.set_polls polls).trace = s.trace := by
  unfold State.set_polls; rfl

@[simp] theorem set_polls_defer_calls (polls : Nat) (s : State) :
    (s.set_polls polls).defer_calls = s.defer_calls := by
  unfold State.set_polls; rfl

@[simp] theorem set_polls_polls (polls : Nat) (s : State) :
    (s.set_polls polls).polls = polls := by
  unfold State.set_polls; rfl

@[simp] theorem set_polls_reads (polls : Nat) (s : State) :
    (s.set_polls polls).reads = s.reads := by
  unfold State.set_polls; rfl

@[simp] theorem draw_yuv_frame_globals (env : Env) (k : Nat) (s : State) :
    (draw_yuv_frame env k s).globals = s.globals := by
  unfold draw_yuv_frame; split <;> (unfold State.emit; rfl)

@[simp] theorem draw_yuv_frame_vbuffer_read (env : Env) (k : Nat) (s : State) :
    (draw_yuv_frame env k s).vbuffer_read = s.vbuffer_read := by
  unfold draw_yuv_frame; split <;> (unfold State.emit; rfl)

@[simp] theorem draw_yuv_frame_vbuffer_write (env : Env) (k : Nat) (s : State) :
    (draw_yuv_frame env k s).vbuffer_write = s.vbuffer_write := by
  unfold draw_yuv_frame; split <;> (unfold State.emit; rfl)

theorem draw_yuv_frame_trace (env : Env) (k : Nat) (s : State) :
    (draw_yuv_frame env k s).trace = s.trace ++
      [if env.gl_defer_yuv_frame s.defer_calls k then Event.defer k else Event.draw k] := by
  unfold draw_yuv_frame; split <;> simp [*]

@[simp] theorem draw_yuv_frame_defer_calls (env : Env) (k : Nat) (s : State) :
    (draw_yuv_frame env k s).defer_calls = s.defer_calls + 1 := by
  unfold draw_yuv_frame; split <;> (unfold State.emit; rfl)

@[simp] theorem draw_yuv_frame_polls (env : Env) (k : Nat) (s : State) :
    (draw_yuv_frame env k s).polls = s.polls := by
  unfold draw_yuv_frame; split <;> (unfold State.emit; rfl)

@[simp] theorem draw_yuv_frame_reads (env : Env) (k : Nat) (s : State) :
    (draw_yuv_frame env k s).reads = s.reads := by
  unfold draw_yuv_frame; split <;> (unfold State.emit; rfl)

@[simp] theorem present_oldest_globals (env : Env) (s : State) :
    (present_oldest env s).globals = s.globals := by
  simp [present_oldest]

@[simp] theorem present_oldest_vbuffer_read (env : Env) (s : State) :
    (present_oldest env s).vbuffer_read = (s.vbuffer_read + 1) % VIDEO_BUFFER_SIZE := by
  simp [present_oldest]

@[simp] theorem present_oldest_vbuffer_write (env : Env) (s : State) :
    (present_oldest env s).vbuffer_write = s.vbuffer_write := by
  simp [present_oldest]

theorem present_oldest_trace (env : Env) (s : State) :
    (present_oldest env s).trace = s.trace ++
      [if env.gl_defer_yuv_frame s.defer_calls s.vbuffer_read then Event.defer s.vbuffer_read
        else Event.draw s.vbuffer_read] := by
  simp [present_oldest, draw_yuv_frame_trace]

@[simp] theorem present_oldest_defer_calls (env : Env) (s : State) :
    (present_oldest env s).defer_calls = s.defer_calls + 1 := by
  simp [present_oldest]

@[simp] theorem present_oldest_polls (env : Env) (s : State) :
    (present_oldest env s).polls = s.polls := by
  simp [present_oldest]

@[simp] theorem present_oldest_reads (env : Env) (s : State) :
    (present_oldest env s).reads = s.reads := by
  simp [present_oldest]

/-! ## One packet -/

theorem video_packet_break {env : Env} {p : AVPacket} {s s' : State} {ret : Int}
    (h : video_packet env p s = (some ret, s')) :
    (ret < 0 ∧ s' = s) ∨
    (0 ≤ ret ∧ s' = present_oldest env (buffer_yuv_frame env s.poll_clock) ∧
      (s.vbuffer_write + 1) % VIDEO_BUFFER_SIZE = s.vbuffer_read) := by
  unfold video_packet at h
  split_ifs at h with h1 h2 h3 h4 h5
  all_goals simp only [Prod.mk.injEq, Option.some.injEq, reduceCtorEq, false_and] at h
  · exact Or.inl ⟨h.1 ▸ h2, h.2.symm⟩
  · exact Or.inl ⟨h.1 ▸ h3 ▸ AVERROR_EOF_neg, h.2.symm⟩
  · exact Or.inr ⟨h.1 ▸ h4, h.2.symm, by simpa using h5⟩

theorem video_packet_continue {env : Env} {p : AVPacket} {s s' : State}
    (h : video_packet env p s = (none, s')) :
    s' = s ∨ (s' = buffer_yuv_frame env s.poll_clock ∧
      (s.vbuffer_write + 1) % VIDEO_BUFFER_SIZE ≠ s.vbuffer_read) := by
  unfold video_packet at h
  split_ifs at h with h1 h2 h3 h4 h5
  all_goals simp only [Prod.mk.injEq, reduceCtorEq, false_and, true_and] at h
  · exact Or.inr ⟨h.symm, by simpa using h5⟩
  · exact Or.inl h.symm
  · exact Or.inl h.symm

theorem audio_packet_break {p : AVPacket} {s s' : State} {ret : Int}
    (h : audio_packet p s = (some ret, s')) : ret < 0 ∧ s' = s.poll_clock := by
  unfold audio_packet at h
  split_ifs at h with h1 h2 h3 h4 h5
  all_goals simp only [Prod.mk.injEq, Option.some.injEq, reduceCtorEq, false_and] at h
  · exact ⟨h.1 ▸ h2, h.2.symm⟩
  · exact ⟨h.1 ▸ h3 ▸ AVERROR_EOF_neg, h.2.symm⟩

theorem audio_packet_continue {p : AVPacket} {s s' : State}
    (h : audio_packet p s = (none, s')) :
    s' = s ∨ s' = s.poll_clock ∨ s' = s.poll_clock.emit (Event.audio (audio_size p s)) := by
  unfold audio_packet at h
  split_ifs at h with h1 h2 h3 h4 h5
  all_goals simp only [Prod.mk.injEq, reduceCtorEq, false_and, true_and] at h
  · exact Or.inr (Or.inr h.symm)
  · exact Or.inr (Or.inl h.symm)
  · exact Or.inr (Or.inl h.symm)
  · exact Or.inl h.symm

theorem video_packet_globals (env : Env) (p : AVPacket) (s : State) :
    (video_packet env p s).2.globals = s.globals := by
  rcases h : video_packet env p s with ⟨_ | ret, s'⟩
  · rcases video_packet_continue h with rfl | ⟨rfl, -⟩ <;> simp
  · rcases video_packet_break h with ⟨-, rfl⟩ | ⟨-, rfl, -⟩ <;> simp

theorem audio_packet_globals (p : AVPacket) (s : State) :
    (audio_packet p s).2.globals = s.globals := by
  rcases h : audio_packet p s with ⟨_ | ret, s'⟩
  · rcases audio_packet_continue h with rfl | rfl | rfl <;> simp
  · rcases audio_packet_break h with ⟨-, rfl⟩; simp

theorem read_loop_globals (env : Env) (l : List FrameRead) (s : State) :
    (read_loop env l s).2.2.globals = s.globals := by
  induction l generalizing s with
  | nil => rfl
  | cons r rest ih =>
    have hv := video_packet_globals env r.packet s
    unfold read_loop
    split
    · rfl
    · split
      · next ret s1 h => rw [h] at hv; exact hv
      · next s1 h =>
        rw [h] at hv
        have ha := audio_packet_globals r.packet s1
        split
        · next ret s2 h2 => rw [h2] at ha; exact ha.trans hv
        · next s2 h2 => rw [h2] at ha; exact (ih s2).trans (ha.trans hv)

/-! ## The packet loop -/

theorem read_loop_cons_cases (env : Env) (r : FrameRead) (rest : List FrameRead) (s : State) :
    (r.ret < 0 ∧ read_loop env (r :: rest) s = (r.ret, rest, s)) ∨
    (0 ≤ r.ret ∧ ∃ ret s1, video_packet env r.packet s = (some ret, s1) ∧
      read_loop env (r :: rest) s = (ret, rest, s1)) ∨
    (0 ≤ r.ret ∧ ∃ s1 ret s2, video_packet env r.packet s = (none, s1) ∧
      audio_packet r.packet s1 = (some ret, s2) ∧
      read_loop env (r :: rest) s = (ret, rest, s2)) ∨
    (0 ≤ r.ret ∧ ∃ s1 s2, video_packet env r.packet s = (none, s1) ∧
      audio_packet r.packet s1 = (none, s2) ∧
      read_loop env (r :: rest) s = read_loop env rest s2) := by
  by_cases h0 : r.ret < 0
  · left; exact ⟨h0, by simp [read_loop, h0]⟩
  · right
    have h0' : 0 ≤ r.ret := not_lt.mp h0
    rcases hv : video_packet env r.packet s with ⟨_ | ret, s1⟩
    · right
      rcases ha : audio_packet r.packet s1 with ⟨_ | ret, s2⟩
      · right; exact ⟨h0', s1, s2, rfl, ha, by simp [read_loop, h0, hv, ha]⟩
      · left; exact ⟨h0', s1, ret, s2, rfl, ha, by simp [read_loop, h0, hv, ha]⟩
    · left; exact ⟨h0', ret, s1, rfl, by simp [read_loop, h0, hv]⟩

@[simp] theorem presentations_nil : presentations [] = [] := rfl

@[simp] theorem presentations_append (a b : List Event) :
    presentations (a ++ b) = presentations a ++ presentations b := by
  simp [presentations]

@[simp] theorem presentations_push (k : Nat) : presentations [Event.push k] = [] := rfl
@[simp] theorem presentations_audio (k : Nat) : presentations [Event.audio k] = [] := rfl
@[simp] theorem presentations_play : presentations [Event.play] = [] := rfl
@[simp] theorem presentations_defer (k : Nat) : presentations [Event.defer k] = [k] := rfl
@[simp] theorem presentations_draw (k : Nat) : presentations [Event.draw k] = [k] := rfl

@[simp] theorem presentations_request (b : Bool) (k : Nat) :
    presentations [if b then Event.defer k else Event.draw k] = [k] := by
  cases b <;> rfl

theorem Quiet.refl (s : State) : Quiet s s := ⟨[], by simp⟩

theorem Quiet.trans {a b c : State} (h1 : Quiet a b) (h2 : Quiet b c) : Quiet a c := by
  obtain ⟨e1, t1, p1, r1, d1⟩ := h1
  obtain ⟨e2, t2, p2, r2, d2⟩ := h2
  exact ⟨e1 ++ e2, by simp [t2, t1], by simp [p1, p2], r2.trans r1, d2.trans d1⟩

theorem Quiet.then_presented {env : Env} {a b c : State} (h1 : Quiet a b)
    (h2 : Presented env b c) : Presented env a c := by
  obtain ⟨e1, t1, p1, r1, d1⟩ := h1
  obtain ⟨e2, t2, p2, m2, r2, d2⟩ := h2
  refine ⟨e1 ++ e2, by simp [t2, t1], by simp [p1, p2, r1], ?_, by rw [r2, r1], by rw [d2, d1]⟩
  rw [r1, d1] at m2
  exact List.mem_append_right _ m2

theorem Presented.then_quiet {env : Env} {a b c : State} (h1 : Presented env a b)
    (h2 : Quiet b c) : Presented env a c := by
  obtain ⟨e1, t1, p1, m1, r1, d1⟩ := h1
  obtain ⟨e2, t2, p2, r2, d2⟩ := h2
  exact ⟨e1 ++ e2, by simp [t2, t1], by simp [p1, p2], List.mem_append_left _ m1,
    r2.trans r1, d2.trans d1⟩

theorem quiet_poll_clock (s : State) : Quiet s s.poll_clock := ⟨[], by simp⟩

theorem quiet_emit_audio (s : State) (n : Nat) : Quiet s (s.emit (Event.audio n)) :=
  ⟨[Event.audio n], by simp⟩

theorem quiet_buffer_yuv_frame (env : Env) (s : State) : Quiet s (buffer_yuv_frame env s) :=
  ⟨[Event.push s.vbuffer_write], by simp⟩

theorem presented_present_oldest (env : Env) (s : State) :
    Presented env s (present_oldest env s) :=
  ⟨_, present_oldest_trace env s, by simp, by simp, by simp, by simp⟩

theorem video_packet_quiet {env : Env} {p : AVPacket} {s s' : State}
    (h : video_packet env p s = (none, s')) : Quiet s s' := by
  rcases video_packet_continue h with rfl | ⟨rfl, -⟩
  · exact Quiet.refl _
  · exact (quiet_poll_clock s).trans (quiet_buffer_yuv_frame env _)

theorem audio_packet_quiet (p : AVPacket) (s : State) : Quiet s (audio_packet p s).2 := by
  rcases h : audio_packet p s with ⟨_ | ret, s'⟩
  · rcases audio_packet_continue h with rfl | rfl | rfl
    · exact Quiet.refl _
    · exact quiet_poll_clock s
    · exact (quiet_poll_clock s).trans (quiet_emit_audio _ _)
  · rcases audio_packet_break h with ⟨-, rfl⟩
    exact quiet_poll_clock s

/-- The packet loop leaves with a negative `ret` and no presentation request,
or with a non-negative `ret` after exactly one request, for the slot under the
read cursor, which it then advanced. -/
theorem read_loop_effect (env : Env) (l : List FrameRead) (s : State) :
    ((read_loop env l s).1 < 0 ∧ Quiet s (read_loop env l s).2.2) ∨
    (0 ≤ (read_loop env l s).1 ∧ Presented env s (read_loop env l s).2.2) := by
  induction l generalizing s with
  | nil => exact Or.inl ⟨AVERROR_EOF_neg, Quiet.refl s⟩
  | cons r rest ih =>
    rcases read_loop_cons_cases env r rest s with ⟨h0, e⟩ | ⟨-, ret, s1, hv, e⟩ |
      ⟨-, s1, ret, s2, hv, ha, e⟩ | ⟨-, s1, s2, hv, ha, e⟩
    · rw [e]; exact Or.inl ⟨h0, Quiet.refl s⟩
    · rw [e]
      rcases video_packet_break hv with ⟨hneg, rfl⟩ | ⟨hpos, rfl, -⟩
      · exact Or.inl ⟨hneg, Quiet.refl _⟩
      · refine Or.inr ⟨hpos, ?_⟩
        exact ((quiet_poll_clock s).trans (quiet_buffer_yuv_frame env _)).then_presented
          (presented_present_oldest env _)
    · rw [e]
      have hq := audio_packet_quiet r.packet s1
      rw [ha] at hq
      exact Or.inl ⟨(audio_packet_break ha).1, (video_packet_quiet hv).trans hq⟩
    · rw [e]
      have hq := audio_packet_quiet r.packet s1
      rw [ha] at hq
      have hq' := (video_packet_quiet hv).trans hq
      rcases ih s2 with ⟨hn, q⟩ | ⟨hp, q⟩
      · exact Or.inl ⟨hn, hq'.trans q⟩
      · exact Or.inr ⟨hp, hq'.then_presented q⟩

/-! ## One tick -/

theorem session_of_globals {s s' : State} (h : s'.globals = s.globals) :
    s'.session = s.session := by
  simp only [State.globals, Prod.mk.injEq] at h
  simp [State.session, h]

theorem counter_of_globals {s s' : State} (h : s'.globals = s.globals) :
    s'.movie_frame_counter = s.movie_frame_counter := by
  simp only [State.globals, Prod.mk.injEq] at h
  simp [h]

theorem start_time_of_globals {s s' : State} (h : s'.globals = s.globals) :
    s'.start_time = s.start_time := by
  simp only [State.globals, Prod.mk.injEq] at h
  simp [h]

theorem first_audio_packet_of_globals {s s' : State} (h : s'.globals = s.globals) :
    s'.first_audio_packet = s.first_audio_packet := by
  simp only [State.globals, Prod.mk.injEq] at h
  simp [h]

theorem format_ctx_of_session {s s' : State} (h : s'.session = s.session) :
    s'.format_ctx = s.format_ctx := by
  simp only [State.session, Prod.mk.injEq] at h
  simp [h]

theorem codec_ctx_of_session {s s' : State} (h : s'.session = s.session) :
    s'.codec_ctx = s.codec_ctx := by
  simp only [State.session, Prod.mk.injEq] at h
  simp [h]

theorem videostream_of_session {s s' : State} (h : s'.session = s.session) :
    s'.videostream = s.videostream := by
  simp only [State.session, Prod.mk.injEq] at h
  simp [h]

theorem audiostream_of_session {s s' : State} (h : s'.session = s.session) :
    s'.audiostream = s.audiostream := by
  simp only [State.session, Prod.mk.injEq] at h
  simp [h]

theorem movie_fps_of_session {s s' : State} (h : s'.session = s.session) :
    s'.movie_fps = s.movie_fps := by
  simp only [State.session, Prod.mk.injEq] at h
  simp [h]

theorem timer_freq_of_session {s s' : State} (h : s'.session = s.session) :
    s'.timer_freq = s.timer_freq := by
  simp only [State.session, Prod.mk.injEq] at h
  simp [h]

@[simp] theorem arm_start_session (env : Env) (s : State) :
    (s.arm_start env).session = s.session := rfl

@[simp] theorem arm_start_counter (env : Env) (s : State) :
    (s.arm_start env).movie_frame_counter = s.movie_frame_counter := rfl

theorem quiet_arm_start (env : Env) (s : State) : Quiet s (s.arm_start env) :=
  ⟨[], by simp⟩

theorem quiet_count_frame (s : State) : Quiet s s.count_frame := ⟨[], by simp⟩

@[simp] theorem count_frame_session (s : State) : s.count_frame.session = s.session := rfl

@[simp] theorem count_frame_counter (s : State) :
    s.count_frame.movie_frame_counter = (s.movie_frame_counter + 1) % UINT32 := rfl

theorem first_audio_session (env : Env) (s : State) : (first_audio env s).session = s.session := by
  unfold first_audio; split <;> rfl

theorem first_audio_counter (env : Env) (s : State) :
    (first_audio env s).movie_frame_counter = s.movie_frame_counter := by
  unfold first_audio; split <;> rfl

@[simp] theorem first_audio_read (env : Env) (s : State) :
    (first_audio env s).vbuffer_read = s.vbuffer_read := by
  unfold first_audio; split <;> rfl

@[simp] theorem first_audio_write (env : Env) (s : State) :
    (first_audio env s).vbuffer_write = s.vbuffer_write := by
  unfold first_audio; split <;> rfl

@[simp] theorem first_audio_reads (env : Env) (s : State) :
    (first_audio env s).reads = s.reads := by
  unfold first_audio; split <;> rfl

theorem quiet_first_audio (env : Env) (s : State) : Quiet s (first_audio env s) := by
  unfold first_audio
  split
  · exact ⟨[Event.play], rfl, rfl, rfl, rfl⟩
  · exact Quiet.refl s

theorem read_packets_globals_of_loop (env : Env) (s1 : State) :
    ((read_loop env s1.reads s1).2.2.set_reads (read_loop env s1.reads s1).2.1).globals
      = s1.globals := by
  rw [set_reads_globals]; exact read_loop_globals env _ s1

theorem read_packets_session (env : Env) (s : State) :
    (read_packets env s).2.session = s.session := by
  unfold read_packets
  simp only []
  split
  · exact (session_of_globals (read_packets_globals_of_loop env (s.arm_start env))).trans rfl
  · exact (session_of_globals (read_packets_globals_of_loop env s))

theorem read_packets_counter (env : Env) (s : State) :
    (read_packets env s).2.movie_frame_counter = s.movie_frame_counter := by
  unfold read_packets
  simp only []
  split
  · exact (counter_of_globals (read_packets_globals_of_loop env (s.arm_start env))).trans rfl
  · exact (counter_of_globals (read_packets_globals_of_loop env s))

theorem read_packets_effect (env : Env) (s : State) :
    ((read_packets env s).1 < 0 ∧ Quiet s (read_packets env s).2) ∨
    (0 ≤ (read_packets env s).1 ∧ Presented env s (read_packets env s).2) := by
  have key : ∀ s1 : State, Quiet s s1 →
      ((read_loop env s1.reads s1).1 < 0 ∧
        Quiet s ((read_loop env s1.reads s1).2.2.set_reads (read_loop env s1.reads s1).2.1)) ∨
      (0 ≤ (read_loop env s1.reads s1).1 ∧
        Presented env s
          ((read_loop env s1.reads s1).2.2.set_reads (read_loop env s1.reads s1).2.1)) := by
    intro s1 q
    rcases read_loop_effect env s1.reads s1 with ⟨hn, q'⟩ | ⟨hp, q'⟩
    · exact Or.inl ⟨hn, (q.trans q').trans ⟨[], by simp⟩⟩
    · exact Or.inr ⟨hp, (q.then_presented q').then_quiet ⟨[], by simp⟩⟩
  unfold read_packets
  simp only []
  split
  · exact key _ (quiet_arm_start env s)
  · exact key _ (Quiet.refl s)

theorem drain_session (env : Env) (ret : Int) (s : State) :
    (drain env ret s).2.session = s.session := by
  unfold drain
  split_ifs <;> first | rfl | exact session_of_globals (present_oldest_globals env s)

theorem drain_counter (env : Env) (ret : Int) (s : State) :
    (drain env ret s).2.movie_frame_counter = s.movie_frame_counter := by
  unfold drain
  split_ifs <;> first | rfl | exact counter_of_globals (present_oldest_globals env s)

theorem drain_effect (env : Env) (ret : Int) (s : State) :
    (0 ≤ ret ∧ drain env ret s = (true, s)) ∨
    (ret < 0 ∧ s.vbuffer_write = s.vbuffer_read ∧ drain env ret s = (false, s)) ∨
    (ret < 0 ∧ s.vbuffer_write ≠ s.vbuffer_read ∧
      drain env ret s = (decide (s.vbuffer_write ≠ (s.vbuffer_read + 1) % VIDEO_BUFFER_SIZE),
        present_oldest env s)) := by
  unfold drain
  by_cases h : ret < 0
  · right
    by_cases h2 : s.vbuffer_write = s.vbuffer_read
    · left; exact ⟨h, h2, by simp [h, h2]⟩
    · right
      refine ⟨h, h2, ?_⟩
      simp only [h, if_true, ne_eq, h2, not_false_eq_true, present_oldest_vbuffer_write,
        present_oldest_vbuffer_read]
      by_cases h3 : s.vbuffer_write = (s.vbuffer_read + 1) % VIDEO_BUFFER_SIZE
      · rw [if_pos h3]; simp [h3]
      · rw [if_neg h3]; simp [h3]
  · left; exact ⟨not_lt.mp h, by simp [h]⟩

theorem tick_body_session (env : Env) (s : State) : (tick_body env s).2.session = s.session := by
  unfold tick_body
  rw [drain_session, count_frame_session, first_audio_session, read_packets_session]

theorem tick_body_counter (env : Env) (s : State) :
    (tick_body env s).2.movie_frame_counter = (s.movie_frame_counter + 1) % UINT32 := by
  unfold tick_body
  rw [drain_counter, count_frame_counter, first_audio_counter, read_packets_counter]

/-- A tick makes at most one presentation request, for the slot under the read
cursor, and advances the read cursor exactly when it makes one. -/
theorem tick_body_effect (env : Env) (s : State) :
    Quiet s (tick_body env s).2 ∨ Presented env s (tick_body env s).2 := by
  unfold tick_body
  have hq := fun x => (quiet_first_audio env x).trans (quiet_count_frame (first_audio env x))
  rcases read_packets_effect env s with ⟨hn, q⟩ | ⟨hp, q⟩
  · rcases drain_effect env (read_packets env s).1
      (first_audio env (read_packets env s).2).count_frame with ⟨hp, -⟩ | ⟨-, -, e⟩ | ⟨-, -, e⟩
    · omega
    · rw [e]; exact Or.inl (q.trans (hq _))
    · rw [e]
      exact Or.inr ((q.trans (hq _)).then_presented (presented_present_oldest env _))
  · rcases drain_effect env (read_packets env s).1
      (first_audio env (read_packets env s).2).count_frame with ⟨-, e⟩ | ⟨hn, -⟩ | ⟨hn, -⟩
    · rw [e]; exact Or.inr (q.then_quiet (hq _))
    · omega
    · omega

/-- A tick that returns is the tick body, followed on the continuing path by
the frame limiter, which only polls the clock. -/
theorem tick_some {env : Env} {fuel : Nat} {u : Bool} {s s' : State} {r : Bool}
    (hopen : s.format_ctx = true)
    (h : ffmpeg_update_movie_sample env fuel u s = some (r, s')) :
    r = (tick_body env s).1 ∧
    ∃ polls, s' = (tick_body env s).2.set_polls polls := by
  unfold ffmpeg_update_movie_sample at h
  simp only [hopen, Bool.true_eq_false, if_false] at h
  rcases hb : tick_body env s with ⟨b, s1⟩
  rw [hb] at h
  cases b
  · simp only [Option.some.injEq, Prod.mk.injEq] at h
    exact ⟨h.1.symm, s1.polls, h.2.symm.trans rfl⟩
  · cases u
    · simp only [Bool.false_eq_true, if_false, Option.some.injEq, Prod.mk.injEq] at h
      exact ⟨h.1.symm, s1.polls, h.2.symm.trans rfl⟩
    · simp only [if_true] at h
      rcases hw : wait_loop env s1 fuel s1.polls with _ | p
      · rw [hw] at h; simp at h
      · rw [hw] at h
        simp only [Option.some.injEq, Prod.mk.injEq] at h
        exact ⟨h.1.symm, p, h.2.symm⟩

theorem tick_closed (env : Env) (fuel : Nat) (u : Bool) (s : State)
    (hclosed : s.format_ctx = false) :
    ffmpeg_update_movie_sample env fuel u s = some (false, s) := by
  simp [ffmpeg_update_movie_sample, hclosed]

theorem tick_no_limiter (env : Env) (fuel : Nat) (s : State) (hopen : s.format_ctx = true) :
    ffmpeg_update_movie_sample env fuel false s = some (tick_body env s) := by
  unfold ffmpeg_update_movie_sample
  simp only [hopen, Bool.true_eq_false, if_false]
  rcases tick_body env s with ⟨b, s1⟩
  cases b <;> simp

/-! ## The frame limiter -/

theorem tdiv_thousand_pos {tf : Int} (h : 1000 ≤ tf) : 0 < Int.tdiv tf 1000 := by
  rw [Int.tdiv_eq_ediv (by omega) (by decide)]
  omega

/-- With a timer frequency of at least 1000 and a positive frame rate, `LAG` is
negative exactly when the elapsed time is below `k` frame periods. -/
theorem LAG_neg_iff {tf : Int} (h : 1000 ≤ tf) {fps : ℚ} (_hfps : 0 < fps) (now st : Int)
    (k : Nat) :
    LAG now st tf fps k < 0 ↔ (((now - st : Int)) : ℚ) < ((tf : ℚ) / fps) * (k : ℚ) := by
  have hd : (0 : ℚ) < ((Int.tdiv tf 1000 : Int) : ℚ) := by exact_mod_cast tdiv_thousand_pos h
  unfold LAG
  rw [div_lt_iff₀ hd, zero_mul, sub_neg]

theorem wait_loop_some {env : Env} {s : State} {fuel p q : Nat}
    (h : wait_loop env s fuel p = some q) :
    p < q ∧ q ≤ p + fuel ∧
    ¬ LAG (env.clock (q - 1)) s.start_time s.timer_freq s.movie_fps s.movie_frame_counter < 0 ∧
    ∀ i, p ≤ i → i < q - 1 →
      LAG (env.clock i) s.start_time s.timer_freq s.movie_fps s.movie_frame_counter < 0 := by
  induction fuel generalizing p with
  | zero => simp [wait_loop] at h
  | succ fuel ih =>
    unfold wait_loop at h
    split_ifs at h with hl
    · obtain ⟨h1, h2, h3, h4⟩ := ih h
      refine ⟨by omega, by omega, h3, ?_⟩
      intro i hi hi'
      rcases Nat.eq_or_lt_of_le hi with rfl | hlt
      · exact hl
      · exact h4 i (by omega) hi'
    · simp only [Option.some.injEq] at h
      subst h
      refine ⟨by omega, by omega, by simpa using hl, ?_⟩
      intro i hi hi'
      simp at hi'
      omega

theorem wait_loop_returns (env : Env) (s : State) (n : Nat) :
    ∀ p fuel : Nat, n < fuel →
      ¬ LAG (env.clock (p + n)) s.start_time s.timer_freq s.movie_fps s.movie_frame_counter < 0 →
      ∃ q, wait_loop env s fuel p = some q ∧ q ≤ p + n + 1 := by
  induction n with
  | zero =>
    intro p fuel hf hl
    obtain ⟨f, rfl⟩ : ∃ f, fuel = f + 1 := ⟨fuel - 1, by omega⟩
    rw [Nat.add_zero] at hl
    exact ⟨p + 1, by simp only [wait_loop, if_neg hl], by omega⟩
  | succ n ih =>
    intro p fuel hf hl
    obtain ⟨f, rfl⟩ : ∃ f, fuel = f + 1 := ⟨fuel - 1, by omega⟩
    unfold wait_loop
    split_ifs with h0
    · have h' : ¬ LAG (env.clock (p + 1 + n)) s.start_time s.timer_freq s.movie_fps
          s.movie_frame_counter < 0 := by
        have : p + 1 + n = p + (n + 1) := by omega
        rw [this]; exact hl
      obtain ⟨q, hq, hle⟩ := ih (p + 1) f (by omega) h'
      exact ⟨q, hq, by omega⟩
    · exact ⟨p + 1, rfl, by omega⟩

theorem wait_loop_terminates (env : Env) (s : State) (hc : clock_unbounded env)
    (htf : 1000 ≤ s.timer_freq) (_hfps : 0 < s.movie_fps) (p : Nat) :
    ∃ fuel, ∀ fuel', fuel ≤ fuel' → ∃ q, wait_loop env s fuel' p = some q := by
  obtain ⟨i, hi, ht⟩ := hc p (s.start_time +
    Int.ceil (((s.timer_freq : ℚ) / s.movie_fps) * (s.movie_frame_counter : ℚ)))
  obtain ⟨n, rfl⟩ : ∃ n, i = p + n := ⟨i - p, by omega⟩
  refine ⟨n + 1, fun fuel' hf => ?_⟩
  have hl : ¬ LAG (env.clock (p + n)) s.start_time s.timer_freq s.movie_fps
      s.movie_frame_counter < 0 := by
    rw [LAG_neg_iff htf _hfps, not_lt]
    have h1 : (Int.ceil (((s.timer_freq : ℚ) / s.movie_fps) * (s.movie_frame_counter : ℚ)) : ℚ)
        ≤ ((env.clock (p + n) - s.start_time : Int) : ℚ) := by
      exact_mod_cast (by omega : Int.ceil (((s.timer_freq : ℚ) / s.movie_fps) *
        (s.movie_frame_counter : ℚ)) ≤ env.clock (p + n) - s.start_time)
    exact le_trans (Int.le_ceil _) h1
  obtain ⟨q, hq, -⟩ := wait_loop_returns env s n p fuel' (by omega) hl
  exact ⟨q, hq⟩

theorem wait_loop_mono {env : Env} {s : State} {fuel p q : Nat}
    (h : wait_loop env s fuel p = some q) :
    ∀ fuel', fuel ≤ fuel' → wait_loop env s fuel' p = some q := by
  induction fuel generalizing p with
  | zero => simp [wait_loop] at h
  | succ fuel ih =>
    intro fuel' hf
    obtain ⟨f, rfl⟩ : ∃ f, fuel' = f + 1 := ⟨fuel' - 1, by omega⟩
    unfold wait_loop at h ⊢
    split_ifs at h ⊢ with hl
    · exact ih h f (by omega)
    · exact h

theorem tick_mono {env : Env} {fuel : Nat} {u : Bool} {s : State} {x : Bool × State}
    (h : ffmpeg_update_movie_sample env fuel u s = some x) :
    ∀ fuel', fuel ≤ fuel' → ffmpeg_update_movie_sample env fuel' u s = some x := by
  intro fuel' hf
  by_cases hopen : s.format_ctx = true
  · cases u
    · rw [tick_no_limiter env fuel s hopen] at h
      rw [tick_no_limiter env fuel' s hopen]; exact h
    · unfold ffmpeg_update_movie_sample at h ⊢
      simp only [hopen, Bool.true_eq_false, if_false, if_true] at h ⊢
      rcases hb : tick_body env s with ⟨b, s1⟩
      rw [hb] at h
      cases b
      · exact h
      · simp only [] at h ⊢
        rcases hw : wait_loop env s1 fuel s1.polls with _ | q
        · rw [hw] at h; simp at h
        · rw [wait_loop_mono hw fuel' hf]
          rw [hw] at h
          exact h
  · have hclosed : s.format_ctx = false := by simpa using hopen
    rw [tick_closed env fuel u s hclosed] at h
    rw [tick_closed env fuel' u s hclosed]; exact h

theorem tick_terminates (env : Env) (s : State) (hc : clock_unbounded env)
    (htf : 1000 ≤ s.timer_freq) (hfps : 0 < s.movie_fps) (u : Bool) :
    ∃ fuel r s', ffmpeg_update_movie_sample env fuel u s = some (r, s') ∧
      s'.timer_freq = s.timer_freq ∧ s'.movie_fps = s.movie_fps := by
  by_cases hopen : s.format_ctx = true
  · have htf'' : (tick_body env s).2.timer_freq = s.timer_freq :=
      timer_freq_of_session (tick_body_session env s)
    have hfps'' : (tick_body env s).2.movie_fps = s.movie_fps :=
      movie_fps_of_session (tick_body_session env s)
    have htf' : (tick_body env s).2.timer_freq = s.timer_freq ∧
        (tick_body env s).2.movie_fps = s.movie_fps := ⟨htf'', hfps''⟩
    obtain ⟨fuel, hfuel⟩ := wait_loop_terminates env (tick_body env s).2 hc
      (by rw [htf'']; exact htf) (by rw [hfps'']; exact hfps) (tick_body env s).2.polls
    obtain ⟨q, hq⟩ := hfuel fuel (le_refl _)
    refine ⟨fuel, ?_⟩
    unfold ffmpeg_update_movie_sample
    simp only [hopen, Bool.true_eq_false, if_false]
    rcases hb : tick_body env s with ⟨b, s1⟩
    rw [hb] at hq htf'
    cases b
    · exact ⟨false, s1, rfl, htf'⟩
    · cases u
      · exact ⟨true, s1, rfl, htf'⟩
      · simp only [if_true]
        simp only [] at hq
        rw [hq]
        exact ⟨true, _, rfl, htf'⟩
  · have hclosed : s.format_ctx = false := by simpa using hopen
    exact ⟨0, false, s, tick_closed env 0 u s hclosed, rfl, rfl⟩

theorem run_ticks_mono {env : Env} {u : Bool} {n : Nat} :
    ∀ {fuel : Nat} {s : State} {res : List Bool × State},
      run_ticks env fuel u n s = some res →
      ∀ fuel', fuel ≤ fuel' → run_ticks env fuel' u n s = some res := by
  induction n with
  | zero => intro fuel s res h fuel' _; exact h
  | succ n ih =>
    intro fuel s res h fuel' hf
    unfold run_ticks at h ⊢
    rcases ht : ffmpeg_update_movie_sample env fuel u s with _ | ⟨r, s1⟩
    · rw [ht] at h; simp at h
    · rw [ht] at h
      rw [tick_mono ht fuel' hf]
      simp only [] at h ⊢
      rcases hr : run_ticks env fuel u n s1 with _ | ⟨rs, s2⟩
      · rw [hr] at h; simp at h
      · rw [hr] at h
        rw [ih hr fuel' hf]
        exact h

/-- When time passes, with a timer of at least 1000 counts per second and a
positive frame rate, every run of ticks returns, given enough clock polls. -/
theorem run_ticks_terminates (env : Env) (hc : clock_unbounded env) (u : Bool) (n : Nat) :
    ∀ s : State, 1000 ≤ s.timer_freq → 0 < s.movie_fps →
      ∃ fuel res, run_ticks env fuel u n s = some res := by
  induction n with
  | zero => intro s _ _; exact ⟨0, _, rfl⟩
  | succ n ih =>
    intro s htf hfps
    obtain ⟨f1, r, s', hr, htf', hfps'⟩ := tick_terminates env s hc htf hfps u
    obtain ⟨f2, res, hres⟩ := ih s' (by rw [htf']; exact htf) (by rw [hfps']; exact hfps)
    refine ⟨max f1 f2, (r :: res.1, res.2), ?_⟩
    unfold run_ticks
    rw [tick_mono hr _ (le_max_left _ _)]
    simp only []
    rw [run_ticks_mono hres _ (le_max_right _ _)]

/-- Without the frame limiter every run of ticks returns. -/
theorem run_ticks_no_limiter (env : Env) (fuel : Nat) (n : Nat) :
    ∀ s : State, ∃ res, run_ticks env fuel false n s = some res := by
  induction n with
  | zero => intro s; exact ⟨_, rfl⟩
  | succ n ih =>
    intro s
    by_cases hopen : s.format_ctx = true
    · obtain ⟨res, hres⟩ := ih (tick_body env s).2
      exact ⟨((tick_body env s).1 :: res.1, res.2),
        by simp only [run_ticks, tick_no_limiter env fuel s hopen, hres]⟩
    · have hclosed : s.format_ctx = false := by simpa using hopen
      obtain ⟨res, hres⟩ := ih s
      exact ⟨(false :: res.1, res.2),
        by simp only [run_ticks, tick_closed env fuel false s hclosed, hres]⟩

/-! ## Frame counter, deferred presentations, pacing and redraw (C7, C4, C6, C8, C10) -/

/-- C7: on an open session every tick that returns has incremented
`movie_frame_counter` by exactly 1 modulo 2^32, whatever the container
delivered and whatever the tick returns; such a tick returns at once without
the frame limiter, and with it as soon as time has passed, for a timer of at
least 1000 counts per second and a positive frame rate; with no session open
the tick returns false and leaves the whole state, so the frame counter, both
cursors and the start time, unchanged. -/
theorem frame_counter_once_per_tick (env : Env) (s : State) :
    (s.format_ctx = true →
      (∀ fuel u r s', ffmpeg_update_movie_sample env fuel u s = some (r, s') →
        s'.movie_frame_counter = (s.movie_frame_counter + 1) % UINT32) ∧
      (∀ fuel, ∃ r s', ffmpeg_update_movie_sample env fuel false s = some (r, s')) ∧
      (clock_unbounded env → 1000 ≤ s.timer_freq → 0 < s.movie_fps →
        ∃ fuel r s', ffmpeg_update_movie_sample env fuel true s = some (r, s'))) ∧
    (s.format_ctx = false →
      ∀ fuel u, ffmpeg_update_movie_sample env fuel u s = some (false, s)) := by
  refine ⟨fun hopen => ⟨?_, ?_, ?_⟩, fun hclosed fuel u => tick_closed env fuel u s hclosed⟩
  · intro fuel u r s' h
    obtain ⟨-, polls, rfl⟩ := tick_some hopen h
    exact (tick_body_counter env s)
  · intro fuel
    exact ⟨_, _, tick_no_limiter env fuel s hopen⟩
  · intro hc htf hfps
    obtain ⟨fuel, r, s', h, -⟩ := tick_terminates env s hc htf hfps true
    exact ⟨fuel, r, s', h⟩

theorem mem_presentations_of_defer {k : Nat} {evs : List Event} (h : Event.defer k ∈ evs) :
    k ∈ presentations evs :=
  List.mem_filterMap.mpr ⟨_, h, rfl⟩

/-- The events a tick added to the trace. -/
theorem tick_effect {env : Env} {fuel : Nat} {u : Bool} {s s' : State} {r : Bool}
    (h : ffmpeg_update_movie_sample env fuel u s = some (r, s')) :
    Quiet s s' ∨ Presented env s s' := by
  by_cases hopen : s.format_ctx = true
  · obtain ⟨-, polls, rfl⟩ := tick_some hopen h
    rcases tick_body_effect env s with q | q
    · exact Or.inl (q.trans ⟨[], by simp⟩)
    · exact Or.inr (q.then_quiet ⟨[], by simp⟩)
  · have hclosed : s.format_ctx = false := by simpa using hopen
    rw [tick_closed env fuel u s hclosed] at h
    simp only [Option.some.injEq, Prod.mk.injEq] at h
    rw [← h.2]
    exact Or.inl (Quiet.refl s)

/-- C4 (as the code behaves): a tick in which the hook `gl_defer_yuv_frame`
answers deferred to the presentation request was asked to present the slot
under the read cursor and has advanced the read cursor by one modulo 10, as
after a presentation that was not deferred. -/
theorem deferred_presentation_advances_read (env : Env) (fuel : Nat) (u : Bool) (s s' : State)
    (r : Bool) (k : Nat) (h : ffmpeg_update_movie_sample env fuel u s = some (r, s'))
    (hd : Event.defer k ∈ s'.trace.drop s.trace.length) :
    k = s.vbuffer_read ∧ s'.vbuffer_read = (s.vbuffer_read + 1) % VIDEO_BUFFER_SIZE := by
  rcases tick_effect h with ⟨evs, ht, hp, -, -⟩ | ⟨evs, ht, hp, -, hr, -⟩
  · rw [ht, List.drop_left] at hd
    have := mem_presentations_of_defer hd
    rw [hp] at this
    simp at this
  · rw [ht, List.drop_left] at hd
    have := mem_presentations_of_defer hd
    rw [hp] at this
    exact ⟨by simpa using this, hr⟩

/-- Witness of `deferred_presentation_advances_read`: the buffer-full path with
a deferring hook. -/
theorem deferred_presentation_advances_read_witness :
    Event.defer 0 ∈ (tick_body deferring_env (open_session 0 9 [video_read 0])).2.trace.drop
        (open_session 0 9 [video_read 0]).trace.length ∧
    (0 = (open_session 0 9 [video_read 0]).vbuffer_read ∧
      (tick_body deferring_env (open_session 0 9 [video_read 0])).2.vbuffer_read
        = ((open_session 0 9 [video_read 0]).vbuffer_read + 1) % VIDEO_BUFFER_SIZE) :=
  ⟨by decide, deferred_presentation_advances_read deferring_env 0 false
    (open_session 0 9 [video_read 0]) _ _ 0 (by rfl) (by decide)⟩

/-- C4 fails as stated: with a hook that defers, on the buffer-full path
(read 0, write 9, one decodable packet) and on the drain path (read 0,
write 2, container exhausted) the tick moves the read cursor from 0 to 1. -/
theorem deferred_tick_moves_read_cursor :
    ((ffmpeg_update_movie_sample deferring_env 0 false (open_session 0 9 [video_read 0])).map
        (fun x => (x.1, x.2.vbuffer_read, x.2.trace))
      = some (true, 1, [Event.push 9, Event.defer 0])) ∧
    ((ffmpeg_update_movie_sample deferring_env 0 false (open_session 0 2 [])).map
        (fun x => (x.1, x.2.vbuffer_read, x.2.trace))
      = some (true, 1, [Event.defer 0])) ∧
    (open_session 0 9 [video_read 0]).vbuffer_read = 0 ∧ (open_session 0 2 []).vbuffer_read = 0 := by
  decide

/-- C6: with a timer frequency of at least 1000 and a positive frame rate, the
frame limiter leaves its loop at a clock reading `now` exactly when
`now - start_time` is at least `(timer_freq / movie_fps) * movie_frame_counter`;
the loop returns at the first poll at which this holds and at no earlier poll,
it does return once such a poll comes, and a tick with `use_movie_fps` that
returns true has made its last clock poll at such a reading, `movie_frame_counter`
being the value after the tick's increment. -/
theorem pacer_waits_until_due (env : Env) (s : State) (htf : 1000 ≤ s.timer_freq)
    (_hfps : 0 < s.movie_fps) :
    (∀ now : Int,
      ¬ LAG now s.start_time s.timer_freq s.movie_fps s.movie_frame_counter < 0 ↔
        ((s.timer_freq : ℚ) / s.movie_fps) * (s.movie_frame_counter : ℚ)
          ≤ ((now - s.start_time : Int) : ℚ)) ∧
    (∀ fuel p q, wait_loop env s fuel p = some q →
      p < q ∧
      ((s.timer_freq : ℚ) / s.movie_fps) * (s.movie_frame_counter : ℚ)
        ≤ ((env.clock (q - 1) - s.start_time : Int) : ℚ) ∧
      ∀ i, p ≤ i → i < q - 1 →
        (((env.clock i - s.start_time : Int)) : ℚ)
          < ((s.timer_freq : ℚ) / s.movie_fps) * (s.movie_frame_counter : ℚ)) ∧
    (∀ p n fuel, n < fuel →
      ((s.timer_freq : ℚ) / s.movie_fps) * (s.movie_frame_counter : ℚ)
        ≤ ((env.clock (p + n) - s.start_time : Int) : ℚ) →
      ∃ q, wait_loop env s fuel p = some q ∧ q ≤ p + n + 1) ∧
    (∀ fuel s', s.format_ctx = true →
      ffmpeg_update_movie_sample env fuel true s = some (true, s') →
      s'.movie_frame_counter = (s.movie_frame_counter + 1) % UINT32 ∧
      (tick_body env s).2.polls < s'.polls ∧
      ((s'.timer_freq : ℚ) / s'.movie_fps) * (s'.movie_frame_counter : ℚ)
        ≤ ((env.clock (s'.polls - 1) - s'.start_time : Int) : ℚ) ∧
      ∀ i, (tick_body env s).2.polls ≤ i → i < s'.polls - 1 →
        (((env.clock i - s'.start_time : Int)) : ℚ)
          < ((s'.timer_freq : ℚ) / s'.movie_fps) * (s'.movie_frame_counter : ℚ)) := by
  refine ⟨fun now => ?_, fun fuel p q h => ?_, fun p n fuel hf hdue => ?_, fun fuel s' hopen h => ?_⟩
  · rw [LAG_neg_iff htf _hfps, not_lt]
  · obtain ⟨h1, -, h3, h4⟩ := wait_loop_some h
    rw [LAG_neg_iff htf _hfps, not_lt] at h3
    exact ⟨h1, h3, fun i hi hi' => (LAG_neg_iff htf _hfps _ _ _).mp (h4 i hi hi')⟩
  · exact wait_loop_returns env s n p fuel hf (by rw [LAG_neg_iff htf _hfps, not_lt]; exact hdue)
  · have htf' : 1000 ≤ (tick_body env s).2.timer_freq := by
      rw [timer_freq_of_session (tick_body_session env s)]; exact htf
    have hfps' : 0 < (tick_body env s).2.movie_fps := by
      rw [movie_fps_of_session (tick_body_session env s)]; exact _hfps
    unfold ffmpeg_update_movie_sample at h
    simp only [hopen, Bool.true_eq_false, if_false, if_true] at h
    have hcount := tick_body_counter env s
    rcases hb : tick_body env s with ⟨b, s1⟩
    rw [hb] at h hcount htf' hfps'
    cases b
    · simp at h
    · simp only [] at h hcount htf' hfps' ⊢
      rcases hw : wait_loop env s1 fuel s1.polls with _ | q
      · rw [hw] at h; simp at h
      · rw [hw] at h
        simp only [Option.some.injEq, Prod.mk.injEq, true_and] at h
        subst h
        obtain ⟨h1, -, h3, h4⟩ := wait_loop_some hw
        rw [LAG_neg_iff htf' hfps', not_lt] at h3
        exact ⟨hcount, h1, h3, fun i hi hi' => (LAG_neg_iff htf' hfps' _ _ _).mp (h4 i hi hi')⟩

/-- Witness of `pacer_waits_until_due`: an open session at 15 frames per second
on a 10 MHz timer. -/
theorem pacer_waits_until_due_witness :
    (1000 ≤ (open_session 0 0 [video_read 0]).timer_freq ∧
      0 < (open_session 0 0 [video_read 0]).movie_fps) ∧
    ∀ now : Int,
      ¬ LAG now (open_session 0 0 [video_read 0]).start_time
          (open_session 0 0 [video_read 0]).timer_freq (open_session 0 0 [video_read 0]).movie_fps
          (open_session 0 0 [video_read 0]).movie_frame_counter < 0 ↔
        (((open_session 0 0 [video_read 0]).timer_freq : ℚ)
            / (open_session 0 0 [video_read 0]).movie_fps)
          * ((open_session 0 0 [video_read 0]).movie_frame_counter : ℚ)
          ≤ ((now - (open_session 0 0 [video_read 0]).start_time : Int) : ℚ) :=
  ⟨⟨by decide, by decide⟩,
    (pacer_waits_until_due plain_env (open_session 0 0 [video_read 0]) (by decide) (by decide)).1⟩

/-- C8 (as the code behaves): for every write cursor and every read cursor
from 1 to 9, `ffmpeg_draw_current_frame` asks to present slot
`vbuffer_read - 1`, the slot immediately behind the read cursor, and moves no
cursor. -/
theorem draw_current_frame_behind_read (env : Env) (s : State) (h1 : 1 ≤ s.vbuffer_read)
    (h9 : s.vbuffer_read ≤ 9) :
    ffmpeg_draw_current_frame env s = draw_yuv_frame env (s.vbuffer_read - 1) s ∧
    presentations (ffmpeg_draw_current_frame env s).trace
      = presentations s.trace ++ [s.vbuffer_read - 1] ∧
    (ffmpeg_draw_current_frame env s).vbuffer_read = s.vbuffer_read ∧
    (ffmpeg_draw_current_frame env s).vbuffer_write = s.vbuffer_write := by
  have hidx : current_frame_index s.vbuffer_read = s.vbuffer_read - 1 := by
    unfold current_frame_index UINT32 VIDEO_BUFFER_SIZE
    omega
  unfold ffmpeg_draw_current_frame
  rw [hidx]
  refine ⟨rfl, ?_, by simp, by simp⟩
  rw [draw_yuv_frame_trace]
  simp

/-- Witness of `draw_current_frame_behind_read`: read cursor 3, write cursor 7. -/
theorem draw_current_frame_behind_read_witness :
    (1 ≤ (open_session 3 7 []).vbuffer_read ∧ (open_session 3 7 []).vbuffer_read ≤ 9) ∧
    presentations (ffmpeg_draw_current_frame plain_env (open_session 3 7 [])).trace
      = presentations (open_session 3 7 []).trace ++ [(open_session 3 7 []).vbuffer_read - 1] :=
  ⟨⟨by decide, by decide⟩,
    (draw_current_frame_behind_read plain_env (open_session 3 7 []) (by decide) (by decide)).2.1⟩

/-- C8 fails as stated: with read cursor 3 and write cursor 7 the slot
presented is 2, while the slot behind the write cursor is 6. -/
theorem draw_current_frame_not_behind_write :
    (open_session 3 7 []).vbuffer_read = 3 ∧ (open_session 3 7 []).vbuffer_write = 7 ∧
    (ffmpeg_draw_current_frame plain_env (open_session 3 7 [])).trace = [Event.draw 2] ∧
    ((open_session 3 7 []).vbuffer_write + 9) % 10 = 6 := by
  decide

/-- C10 (the code at the failing input): ten ticks on a movie of 19 pictures
present slots 0 to 9 and leave the read cursor at 0; there
`(vbuffer_read - 1) % 10` on `uint32_t` is 5, and `ffmpeg_draw_current_frame`
presents slot 5, not slot 9 that was presented last. -/
theorem draw_current_frame_wraps_to_slot_five :
    (run_ticks plain_env 0 false 10 (open_session 0 0 (List.replicate 19 (video_read 0)))).map
        (fun x => (x.2.vbuffer_read, presentations x.2.trace,
          presentations ((ffmpeg_draw_current_frame plain_env x.2).trace.drop x.2.trace.length)))
      = some (0, [0, 1, 2, 3, 4, 5, 6, 7, 8, 9], [5]) ∧
    current_frame_index 0 = 5 ∧ (0 + 9) % 10 = 9 := by
  decide

/-! ## A rejected packet against an exhausted container (C9)

The tick does not depend on what the container holds beyond the packets it
reads. -/

@[simp] theorem draw_yuv_frame_set_reads (env : Env) (k : Nat) (X : List FrameRead) (s : State) :
    draw_yuv_frame env k (s.set_reads X) = (draw_yuv_frame env k s).set_reads X := by
  unfold draw_yuv_frame
  simp only [set_reads_defer_calls]
  split <;> rfl

@[simp] theorem present_oldest_set_reads (env : Env) (X : List FrameRead) (s : State) :
    present_oldest env (s.set_reads X) = (present_oldest env s).set_reads X := by
  unfold present_oldest
  rw [draw_yuv_frame_set_reads]
  rfl

@[simp] theorem first_audio_set_reads (env : Env) (X : List FrameRead) (s : State) :
    first_audio env (s.set_reads X) = (first_audio env s).set_reads X := by
  unfold first_audio
  by_cases h : s.first_audio_packet = true
  · rw [if_pos h, if_pos (show (s.set_reads X).first_audio_packet = true from h)]; rfl
  · rw [if_neg h, if_neg (show ¬ (s.set_reads X).first_audio_packet = true from h)]

theorem drain_set_reads (env : Env) (ret : Int) (X : List FrameRead) (s : State) :
    drain env ret (s.set_reads X) = ((drain env ret s).1, (drain env ret s).2.set_reads X) := by
  unfold drain
  simp only [present_oldest_set_reads, set_reads_vbuffer_read, set_reads_vbuffer_write]
  split_ifs <;> rfl

theorem drain_sign (env : Env) {ret ret' : Int} (h : ret < 0 ↔ ret' < 0) (s : State) :
    drain env ret s = drain env ret' s := by
  unfold drain
  by_cases h1 : ret < 0
  · rw [if_pos h1, if_pos (h.mp h1)]
  · rw [if_neg h1, if_neg (fun h2 => h1 (h.mpr h2))]

theorem wait_loop_set_reads (env : Env) (X : List FrameRead) (s : State) (fuel : Nat) :
    ∀ p, wait_loop env (s.set_reads X) fuel p = wait_loop env s fuel p := by
  induction fuel with
  | zero => intro p; rfl
  | succ fuel ih =>
    intro p
    unfold wait_loop
    rw [ih (p + 1)]
    rfl

theorem tick_open (env : Env) (fuel : Nat) (u : Bool) (s : State) (hopen : s.format_ctx = true) :
    ffmpeg_update_movie_sample env fuel u s
      = tick_after_loop env fuel u (read_packets env s).1 (read_packets env s).2 := by
  unfold ffmpeg_update_movie_sample tick_after_loop tick_body
  simp only [hopen, Bool.true_eq_false, if_false]

theorem tick_after_loop_sign (env : Env) (fuel : Nat) (u : Bool) {ret ret' : Int}
    (h : ret < 0 ↔ ret' < 0) (s : State) :
    tick_after_loop env fuel u ret s = tick_after_loop env fuel u ret' s := by
  unfold tick_after_loop
  rw [drain_sign env h]

theorem tick_after_loop_set_reads (env : Env) (fuel : Nat) (u : Bool) (ret : Int)
    (X : List FrameRead) (s : State) :
    tick_after_loop env fuel u ret (s.set_reads X)
      = (tick_after_loop env fuel u ret s).map (fun x => (x.1, x.2.set_reads X)) := by
  unfold tick_after_loop
  rw [first_audio_set_reads]
  have hc : ((first_audio env s).set_reads X).count_frame
      = ((first_audio env s).count_frame).set_reads X := rfl
  rw [hc, drain_set_reads]
  rcases drain env ret (first_audio env s).count_frame with ⟨b, s1⟩
  cases b
  · rfl
  · cases u
    · rfl
    · simp only [if_true, wait_loop_set_reads, set_reads_polls]
      rcases wait_loop env s1 fuel s1.polls with _ | q <;> rfl

theorem video_packet_set_reads (env : Env) (p : AVPacket) (X : List FrameRead) (s : State) :
    video_packet env p (s.set_reads X)
      = ((video_packet env p s).1, (video_packet env p s).2.set_reads X) := by
  unfold video_packet
  have hb : buffer_yuv_frame env (s.set_reads X).poll_clock
      = (buffer_yuv_frame env s.poll_clock).set_reads X := rfl
  have hv : (s.set_reads X).videostream = s.videostream := rfl
  simp only [hb, hv, present_oldest_set_reads, set_reads_vbuffer_read, set_reads_vbuffer_write]
  split_ifs <;> rfl

theorem audio_packet_set_reads (p : AVPacket) (X : List FrameRead) (s : State) :
    audio_packet p (s.set_reads X)
      = ((audio_packet p s).1, (audio_packet p s).2.set_reads X) := by
  unfold audio_packet
  have ha : (s.set_reads X).audiostream = s.audiostream := rfl
  have hs : audio_size p (s.set_reads X) = audio_size p s := rfl
  simp only [ha, hs]
  split_ifs <;> rfl

theorem read_loop_set_reads (env : Env) (X : List FrameRead) (l : List FrameRead) :
    ∀ s : State, read_loop env l (s.set_reads X)
      = ((read_loop env l s).1, (read_loop env l s).2.1, (read_loop env l s).2.2.set_reads X) := by
  induction l with
  | nil => intro s; rfl
  | cons r rest ih =>
    intro s
    unfold read_loop
    by_cases h0 : r.ret < 0
    · simp only [h0, if_true]
    · simp only [h0, if_false]
      rw [video_packet_set_reads]
      rcases video_packet env r.packet s with ⟨_ | ret, s1⟩
      · simp only []
        rw [audio_packet_set_reads]
        rcases audio_packet r.packet s1 with ⟨_ | ret, s2⟩
        · simp only []
          exact ih s2
        · rfl
      · rfl

/-- The tick on a session whose container holds `X`, in terms of the packet
loop over `X`. -/
theorem read_packets_set_reads (env : Env) (X : List FrameRead) (s : State) :
    read_packets env (s.set_reads X)
      = ((read_loop env X (if s.movie_frame_counter = 0 then s.arm_start env else s)).1,
         (read_loop env X (if s.movie_frame_counter = 0 then s.arm_start env else s)).2.2.set_reads
           (read_loop env X (if s.movie_frame_counter = 0 then s.arm_start env else s)).2.1) := by
  unfold read_packets
  have hc : (s.set_reads X).movie_frame_counter = s.movie_frame_counter := rfl
  simp only [hc]
  by_cases h : s.movie_frame_counter = 0
  · simp only [h, if_true]
    have ha : (s.set_reads X).arm_start env = (s.arm_start env).set_reads X := rfl
    rw [ha, set_reads_reads, read_loop_set_reads]
    rfl
  · simp only [h, if_false]
    rw [set_reads_reads, read_loop_set_reads]
    rfl

theorem read_loop_cons_neg (env : Env) {r : FrameRead} (l : List FrameRead) (s : State)
    (h0 : r.ret < 0) : read_loop env (r :: l) s = (r.ret, l, s) := by
  simp [read_loop, h0]

theorem read_loop_cons_vbreak (env : Env) {r : FrameRead} (l : List FrameRead) {s s1 : State}
    {ret : Int} (h0 : ¬ r.ret < 0) (hv : video_packet env r.packet s = (some ret, s1)) :
    read_loop env (r :: l) s = (ret, l, s1) := by
  simp [read_loop, h0, hv]

theorem read_loop_cons_abreak (env : Env) {r : FrameRead} (l : List FrameRead) {s s1 s2 : State}
    {ret : Int} (h0 : ¬ r.ret < 0) (hv : video_packet env r.packet s = (none, s1))
    (ha : audio_packet r.packet s1 = (some ret, s2)) :
    read_loop env (r :: l) s = (ret, l, s2) := by
  simp [read_loop, h0, hv, ha]

theorem read_loop_cons_continue (env : Env) {r : FrameRead} (l : List FrameRead)
    {s s1 s2 : State} (h0 : ¬ r.ret < 0) (hv : video_packet env r.packet s = (none, s1))
    (ha : audio_packet r.packet s1 = (none, s2)) :
    read_loop env (r :: l) s = read_loop env l s2 := by
  simp [read_loop, h0, hv, ha]

/-- A video packet the decoder rejects ends the packet loop as exhaustion of
the container at that point does. -/
theorem read_loop_rejected (env : Env) (bad : FrameRead) (rest : List FrameRead)
    (hret : 0 ≤ bad.ret) (hsend : bad.packet.vsend < 0) (pre : List FrameRead) :
    ∀ s : State, bad.packet.stream_index = s.videostream →
      (read_loop env (pre ++ bad :: rest) s).2.2 = (read_loop env pre s).2.2 ∧
      ((read_loop env (pre ++ bad :: rest) s).1 < 0 ↔ (read_loop env pre s).1 < 0) ∧
      rest <:+ (read_loop env (pre ++ bad :: rest) s).2.1 := by
  have hsuf : ∀ l : List FrameRead, rest <:+ l ++ bad :: rest := fun l =>
    (List.suffix_cons _ _).trans (List.suffix_append _ _)
  induction pre with
  | nil =>
    intro s hvid
    have hv : video_packet env bad.packet s = (some bad.packet.vsend, s) := by
      simp [video_packet, hvid, hsend]
    rw [List.nil_append, read_loop_cons_vbreak env rest (not_lt.mpr hret) hv]
    exact ⟨rfl, ⟨fun _ => AVERROR_EOF_neg, fun _ => hsend⟩, List.suffix_refl _⟩
  | cons r pre ih =>
    intro s hvid
    rw [List.cons_append]
    by_cases h0 : r.ret < 0
    · rw [read_loop_cons_neg env _ s h0, read_loop_cons_neg env _ s h0]
      exact ⟨rfl, Iff.rfl, hsuf pre⟩
    · have hg := video_packet_globals env r.packet s
      rcases hvp : video_packet env r.packet s with ⟨_ | ret, s1⟩
      · rw [hvp] at hg
        have hg2 := audio_packet_globals r.packet s1
        rcases hap : audio_packet r.packet s1 with ⟨_ | ret, s2⟩
        · rw [hap] at hg2
          rw [read_loop_cons_continue env _ h0 hvp hap, read_loop_cons_continue env _ h0 hvp hap]
          refine ih s2 ?_
          rw [videostream_of_session (session_of_globals hg2),
            videostream_of_session (session_of_globals hg)]
          exact hvid
        · rw [read_loop_cons_abreak env _ h0 hvp hap, read_loop_cons_abreak env _ h0 hvp hap]
          exact ⟨rfl, Iff.rfl, hsuf pre⟩
      · rw [read_loop_cons_vbreak env _ h0 hvp, read_loop_cons_vbreak env _ h0 hvp]
        exact ⟨rfl, Iff.rfl, hsuf pre⟩

theorem tick_set_reads_eq (env : Env) (fuel : Nat) (u : Bool) (s : State) (X : List FrameRead)
    (hopen : s.format_ctx = true) :
    ffmpeg_update_movie_sample env fuel u (s.set_reads X)
      = (tick_after_loop env fuel u
          (read_loop env X (if s.movie_frame_counter = 0 then s.arm_start env else s)).1
          (read_loop env X (if s.movie_frame_counter = 0 then s.arm_start env else s)).2.2).map
        (fun x => (x.1, x.2.set_reads
          (read_loop env X (if s.movie_frame_counter = 0 then s.arm_start env else s)).2.1)) := by
  rw [tick_open env fuel u (s.set_reads X) hopen, read_packets_set_reads,
    tick_after_loop_set_reads]

/-- C9: on an open session, a tick in which `avcodec_send_packet` rejects a
video packet ends as the tick in which the container is exhausted at that
point: the same return value and the same state (trace of presentations,
cursors, frame counter and all the rest) but for the packets the container
still holds; after it the container and the video decoder are still open and
the packets behind the rejected one are still to be read, the next one first
when the rejected packet was the first of the tick. -/
theorem decode_failure_like_exhaustion (env : Env) (fuel : Nat) (u : Bool) (s : State)
    (pre rest : List FrameRead) (bad : FrameRead)
    (hopen : s.format_ctx = true) (hcodec : s.codec_ctx = true) (hret : 0 ≤ bad.ret)
    (hvid : bad.packet.stream_index = s.videostream) (hsend : bad.packet.vsend < 0) :
    (ffmpeg_update_movie_sample env fuel u (s.set_reads (pre ++ bad :: rest))).map
        (fun x => (x.1, x.2.set_reads []))
      = (ffmpeg_update_movie_sample env fuel u (s.set_reads pre)).map
        (fun x => (x.1, x.2.set_reads [])) ∧
    (∀ r s', ffmpeg_update_movie_sample env fuel u (s.set_reads (pre ++ bad :: rest)) = some (r, s') →
      s'.format_ctx = true ∧ s'.codec_ctx = true ∧ rest <:+ s'.reads) ∧
    (∀ r s', ffmpeg_update_movie_sample env fuel u (s.set_reads (bad :: rest)) = some (r, s') →
      s'.reads = rest) := by
  have hvid' : bad.packet.stream_index
      = (if s.movie_frame_counter = 0 then s.arm_start env else s).videostream := by
    split <;> exact hvid
  refine ⟨?_, ?_, ?_⟩
  · obtain ⟨hst, hsign, -⟩ := read_loop_rejected env bad rest hret hsend pre _ hvid'
    rw [tick_set_reads_eq env fuel u s _ hopen, tick_set_reads_eq env fuel u s _ hopen,
      Option.map_map, Option.map_map, hst, tick_after_loop_sign env fuel u hsign]
    rfl
  · intro r s' h
    obtain ⟨-, -, hsuf⟩ := read_loop_rejected env bad rest hret hsend pre _ hvid'
    have hs := tick_some (show (s.set_reads (pre ++ bad :: rest)).format_ctx = true from hopen) h
    obtain ⟨-, polls, hs'⟩ := hs
    have hsess := tick_body_session env (s.set_reads (pre ++ bad :: rest))
    refine ⟨?_, ?_, ?_⟩
    · rw [hs']; exact (format_ctx_of_session hsess).trans hopen
    · rw [hs']; exact (codec_ctx_of_session hsess).trans hcodec
    · rw [tick_set_reads_eq env fuel u s _ hopen] at h
      rcases hx : tick_after_loop env fuel u
          (read_loop env (pre ++ bad :: rest)
            (if s.movie_frame_counter = 0 then s.arm_start env else s)).1
          (read_loop env (pre ++ bad :: rest)
            (if s.movie_frame_counter = 0 then s.arm_start env else s)).2.2 with _ | x
      · rw [hx] at h; simp at h
      · rw [hx] at h
        simp only [Option.map_some', Option.some.injEq, Prod.mk.injEq] at h
        rw [← h.2]
        exact hsuf
  · intro r s' h
    have hv : video_packet env bad.packet
        (if s.movie_frame_counter = 0 then s.arm_start env else s)
        = (some bad.packet.vsend, (if s.movie_frame_counter = 0 then s.arm_start env else s)) := by
      simp [video_packet, ← hvid', hsend]
    rw [tick_set_reads_eq env fuel u s _ hopen,
      read_loop_cons_vbreak env rest (not_lt.mpr hret) hv] at h
    rcases hx : tick_after_loop env fuel u bad.packet.vsend
        (if s.movie_frame_counter = 0 then s.arm_start env else s) with _ | x
    · rw [hx] at h; simp at h
    · rw [hx] at h
      simp only [Option.map_some', Option.some.injEq, Prod.mk.injEq] at h
      rw [← h.2]
      rfl

/-- Witness of `decode_failure_like_exhaustion`: two pictures are buffered, the
third packet is rejected, one more packet follows; the tick presents slot 0
and returns true, as it does when the container ends after the two pictures. -/
theorem decode_failure_like_exhaustion_witness :
    (ffmpeg_update_movie_sample plain_env 0 false
        (open_session 0 0 [video_read 0, video_read 0])).map
      (fun x => (x.1, x.2.vbuffer_read, x.2.vbuffer_write, x.2.trace))
      = some (true, 1, 2, [Event.push 0, Event.push 1, Event.draw 0]) ∧
    (ffmpeg_update_movie_sample plain_env 0 false
        ((open_session 0 0 []).set_reads
          ([video_read 0, video_read 0] ++ rejected_read 0 :: [video_read 0]))).map
        (fun x => (x.1, x.2.set_reads []))
      = (ffmpeg_update_movie_sample plain_env 0 false
        ((open_session 0 0 []).set_reads [video_read 0, video_read 0])).map
        (fun x => (x.1, x.2.set_reads [])) :=
  ⟨by decide,
    (decode_failure_like_exhaustion plain_env 0 false (open_session 0 0 [])
      [video_read 0, video_read 0] [video_read 0] (rejected_read 0)
      (by decide) (by decide) (by decide) (by decide) (by decide)).1⟩

/-! ## Loading and releasing (C2, C3) -/

theorem release_textures (s : State) (i idx : Nat) :
    (ffmpeg_release_movie_objects s).texture i idx = 0 := by
  unfold State.texture ffmpeg_release_movie_objects
  simp only [List.getD_eq_getElem?_getD, List.getElem?_map]
  rcases s.video_buffer[i]? with _ | f
  · simp only [Option.map_none', Option.getD_none]
    rcases idx with _ | _ | _ | idx <;> simp
  · simp only [Option.map_some', Option.getD_some, List.getElem?_map]
    rcases f.yuv_textures[idx]? with _ | x <;> simp

theorem prepare_fail_fst (e : PrepareError) (s : State) :
    (prepare_fail e s).1 = s.movie_frames := rfl

theorem prepare_fail_log (e : PrepareError) (s : State) :
    (prepare_fail e s).2.error_log = e :: s.error_log := rfl

theorem prepare_fail_state (e : PrepareError) (s : State) :
    (prepare_fail e s).2.movie_frames = s.movie_frames ∧
    (prepare_fail e s).2.format_ctx = false ∧
    (prepare_fail e s).2.movie_frame_counter = 0 := ⟨rfl, rfl, rfl⟩

theorem prepare_opened_outcome (env : Env) (m : MovieFile) (s : State) :
    (¬ (m.width % UINT32 > env.max_texture_size ∨ m.height % UINT32 > env.max_texture_size) ∧
      (prepare_opened env m s).2.error_log = s.error_log ∧
      (prepare_opened env m s).2.format_ctx = s.format_ctx ∧
      (prepare_opened env m s).2.codec_ctx = s.codec_ctx ∧
      (prepare_opened env m s).2.sws_ctx = !m.pix_fmt_yuvj420p ∧
      (prepare_opened env m s).1 = to_uint32 (c_round (m.fps * m.duration))) ∨
    ((m.width % UINT32 > env.max_texture_size ∨ m.height % UINT32 > env.max_texture_size) ∧
      (prepare_opened env m s).2.error_log = PrepareError.dimensions :: s.error_log ∧
      (prepare_opened env m s).2.format_ctx = false ∧
      (prepare_opened env m s).2.movie_frame_counter = 0 ∧
      (prepare_opened env m s).1 = (prepare_opened env m s).2.movie_frames ∧
      (prepare_opened env m s).1 = to_uint32 (c_round (m.fps * m.duration))) := by
  unfold prepare_opened
  simp only []
  by_cases hd : m.width % UINT32 > env.max_texture_size ∨ m.height % UINT32 > env.max_texture_size
  · rw [if_pos hd]
    exact Or.inr ⟨hd, rfl, rfl, rfl, rfl, rfl⟩
  · rw [if_neg hd]
    refine Or.inl ⟨hd, ?_, ?_, ?_, ?_, ?_⟩
    all_goals cases m.pix_fmt_yuvj420p <;> cases m.sample_fmt_flt <;>
      by_cases ha : 0 ≤ s.audiostream <;> simp [prepare_exit, ha]

/-- The outcome of `ffmpeg_prepare_movie`: either no error is logged, the
container is open and the estimate is returned, or one error is logged, the
container is closed, the frame counter is 0, and the value returned is the
global `movie_frames`: the estimate when the error is the dimension check,
the value from before the call otherwise. -/
theorem prepare_outcome (env : Env) (m : MovieFile) (wa : Bool) (s : State) :
    (¬ prepare_fails env m ∧
      (ffmpeg_prepare_movie env m wa s).2.error_log = s.error_log ∧
      (ffmpeg_prepare_movie env m wa s).2.format_ctx = true ∧
      (ffmpeg_prepare_movie env m wa s).2.codec_ctx = true ∧
      (ffmpeg_prepare_movie env m wa s).2.sws_ctx = !m.pix_fmt_yuvj420p ∧
      (ffmpeg_prepare_movie env m wa s).1 = to_uint32 (c_round (m.fps * m.duration))) ∨
    (prepare_fails env m ∧ ∃ e,
      (ffmpeg_prepare_movie env m wa s).2.error_log = e :: s.error_log ∧
      (ffmpeg_prepare_movie env m wa s).2.format_ctx = false ∧
      (ffmpeg_prepare_movie env m wa s).2.movie_frame_counter = 0 ∧
      (ffmpeg_prepare_movie env m wa s).1 = (ffmpeg_prepare_movie env m wa s).2.movie_frames ∧
      (e = PrepareError.dimensions ↔ ¬ prepare_fails_early m) ∧
      (ffmpeg_prepare_movie env m wa s).1 =
        if e = PrepareError.dimensions then to_uint32 (c_round (m.fps * m.duration))
        else s.movie_frames) := by
  unfold prepare_fails exceeds_max_texture_size prepare_fails_early ffmpeg_prepare_movie
  by_cases h1 : m.open_ret ≠ 0
  · rw [if_pos h1]
    exact Or.inr ⟨Or.inl (Or.inl h1), PrepareError.open_input, rfl, rfl, rfl, rfl, by simp [*], rfl⟩
  rw [if_neg h1]
  simp only []
  by_cases h2 : m.stream_info_ret < 0
  · rw [if_pos h2]
    exact Or.inr ⟨Or.inl (Or.inr (Or.inl h2)), PrepareError.stream_info, rfl, rfl, rfl, rfl, by simp [*], rfl⟩
  rw [if_neg h2]
  by_cases h3 : m.videostream < 0
  · rw [if_pos h3]
    exact Or.inr ⟨Or.inl (Or.inr (Or.inr (Or.inl h3))), PrepareError.no_video_stream,
      rfl, rfl, rfl, rfl, by simp [*], rfl⟩
  rw [if_neg h3]
  by_cases h4 : m.video_alloc = false
  · rw [if_pos h4]
    exact Or.inr ⟨Or.inl (Or.inr (Or.inr (Or.inr (Or.inl h4)))), PrepareError.video_alloc,
      rfl, rfl, rfl, rfl, by simp [*], rfl⟩
  rw [if_neg h4]
  by_cases h5 : m.video_open_ret < 0
  · rw [if_pos h5]
    exact Or.inr ⟨Or.inl (Or.inr (Or.inr (Or.inr (Or.inr (Or.inl h5))))), PrepareError.video_open,
      rfl, rfl, rfl, rfl, by simp [*], rfl⟩
  rw [if_neg h5]
  simp only [prepare_audio]
  by_cases h6 : 0 ≤ m.audiostream
  · rw [if_pos h6]
    by_cases h7 : m.audio_alloc = false
    · rw [if_pos h7]
      exact Or.inr ⟨Or.inl (Or.inr (Or.inr (Or.inr (Or.inr (Or.inr ⟨h6, Or.inl h7⟩))))),
        PrepareError.audio_alloc, rfl, rfl, rfl, rfl, by simp [*], rfl⟩
    rw [if_neg h7]
    by_cases h8 : m.audio_open_ret < 0
    · rw [if_pos h8]
      exact Or.inr ⟨Or.inl (Or.inr (Or.inr (Or.inr (Or.inr (Or.inr ⟨h6, Or.inr h8⟩))))),
        PrepareError.audio_open, rfl, rfl, rfl, rfl, by simp [*], rfl⟩
    rw [if_neg h8]
    rcases prepare_opened_outcome env m _ with ⟨hd, e1, e2, e3, e4, e5⟩ | ⟨hd, e1, e2, e3, e4, e5⟩
    · refine Or.inl ⟨?_, e1, e2, e3.trans (by simpa using h4), e4, e5⟩
      rintro ((h | h | h | h | h | ⟨-, h | h⟩) | h)
      exacts [h1 h, h2 h, h3 h, h4 h, h5 h, h7 h, h8 h, hd h]
    · refine Or.inr ⟨Or.inr hd, PrepareError.dimensions, e1, e2, e3, e4, ?_,
        by rw [if_pos rfl]; exact e5⟩
      simp only [true_iff]
      rintro (h | h | h | h | h | ⟨-, h | h⟩)
      exacts [h1 h, h2 h, h3 h, h4 h, h5 h, h7 h, h8 h]
  · rw [if_neg h6]
    rcases prepare_opened_outcome env m _ with ⟨hd, e1, e2, e3, e4, e5⟩ | ⟨hd, e1, e2, e3, e4, e5⟩
    · refine Or.inl ⟨?_, e1, e2, e3.trans (by simpa using h4), e4, e5⟩
      rintro ((h | h | h | h | h | ⟨h, -⟩) | h)
      exacts [h1 h, h2 h, h3 h, h4 h, h5 h, h6 h, hd h]
    · refine Or.inr ⟨Or.inr hd, PrepareError.dimensions, e1, e2, e3, e4, ?_,
        by rw [if_pos rfl]; exact e5⟩
      simp only [true_iff]
      rintro (h | h | h | h | h | ⟨h, -⟩)
      exacts [h1 h, h2 h, h3 h, h4 h, h5 h, h6 h]

/-- C2 (as the code behaves): a call of `ffmpeg_prepare_movie` that gives up at
any stage closes the container, resets the frame counter and returns the
global `movie_frames`, which no failing path resets: the value it had before
the call when the failure comes before the metadata are read (so 0 only when
it was 0 before), the estimate of the rejected movie when the failure is the
dimension check. -/
theorem failed_prepare_returns_movie_frames (env : Env) (m : MovieFile) (wa : Bool) (s : State)
    (hfail : prepare_fails env m) :
    (ffmpeg_prepare_movie env m wa s).2.format_ctx = false ∧
    (ffmpeg_prepare_movie env m wa s).2.movie_frame_counter = 0 ∧
    (ffmpeg_prepare_movie env m wa s).1 = (ffmpeg_prepare_movie env m wa s).2.movie_frames ∧
    (prepare_fails_early m → (ffmpeg_prepare_movie env m wa s).1 = s.movie_frames) ∧
    (prepare_fails_early m → s.movie_frames = 0 → (ffmpeg_prepare_movie env m wa s).1 = 0) ∧
    (¬ prepare_fails_early m →
      (ffmpeg_prepare_movie env m wa s).1 = to_uint32 (c_round (m.fps * m.duration))) := by
  rcases prepare_outcome env m wa s with ⟨hn, -⟩ | ⟨-, e, -, h2, h3, h4, h5, h6⟩
  · exact absurd hfail hn
  · refine ⟨h2, h3, h4, fun he => ?_, fun he h0 => ?_, fun hne => ?_⟩
    · rw [h6, if_neg (fun hd => (h5.mp hd) he)]
    · rw [h6, if_neg (fun hd => (h5.mp hd) he)]; exact h0
    · rw [h6, if_pos (h5.mpr hne)]

/-- Witness of `failed_prepare_returns_movie_frames`: a file that cannot be
opened, after the sample movie was loaded. -/
theorem failed_prepare_returns_movie_frames_witness :
    prepare_fails plain_env unreadable_movie ∧
    (prepare_fails_early unreadable_movie →
      (ffmpeg_prepare_movie plain_env unreadable_movie true
          (ffmpeg_prepare_movie plain_env sample_movie true initial_state).2).1
        = (ffmpeg_prepare_movie plain_env sample_movie true initial_state).2.movie_frames) :=
  ⟨Or.inl (Or.inl (by decide)),
    (failed_prepare_returns_movie_frames plain_env unreadable_movie true
      (ffmpeg_prepare_movie plain_env sample_movie true initial_state).2
      (Or.inl (Or.inl (by decide)))).2.2.2.1⟩

/-- C2 fails as stated: after the sample movie (150 frames) was loaded, the
load of a file that cannot be opened returns 150; on the initial state the
load of a movie wider than the maximum texture size returns its own estimate,
150. -/
theorem failed_prepare_returns_stale_count :
    unreadable_movie.open_ret ≠ 0 ∧
    (ffmpeg_prepare_movie plain_env unreadable_movie true
        (ffmpeg_prepare_movie plain_env sample_movie true initial_state).2).1 = 150 ∧
    oversize_movie.width > plain_env.max_texture_size ∧
    (ffmpeg_prepare_movie plain_env oversize_movie true initial_state).1 = 150 := by
  with_unfolding_all decide

/-- C3 (the code at the failing input): after a load that succeeded, the
release leaves the container, both decoders, the decoded frame and the
resampler absent and every texture handle 0, but it leaves the converter
`sws_ctx` as the load set it: allocated whenever the source pixel format is
not YUVJ420P. -/
theorem release_after_load_keeps_converter (env : Env) (m : MovieFile) (wa : Bool) (s : State)
    (hok : ¬ prepare_fails env m) :
    (ffmpeg_release_movie_objects (ffmpeg_prepare_movie env m wa s).2).sws_ctx
      = !m.pix_fmt_yuvj420p ∧
    (ffmpeg_release_movie_objects (ffmpeg_prepare_movie env m wa s).2).format_ctx = false ∧
    (ffmpeg_release_movie_objects (ffmpeg_prepare_movie env m wa s).2).codec_ctx = false ∧
    (ffmpeg_release_movie_objects (ffmpeg_prepare_movie env m wa s).2).acodec_ctx = false ∧
    (ffmpeg_release_movie_objects (ffmpeg_prepare_movie env m wa s).2).movie_frame = false ∧
    (ffmpeg_release_movie_objects (ffmpeg_prepare_movie env m wa s).2).swr_ctx = false ∧
    ∀ i idx,
      (ffmpeg_release_movie_objects (ffmpeg_prepare_movie env m wa s).2).texture i idx = 0 := by
  rcases prepare_outcome env m wa s with ⟨-, -, -, -, hsws, -⟩ | ⟨hf, -⟩
  · exact ⟨hsws, rfl, rfl, rfl, rfl, rfl, fun i idx => release_textures _ i idx⟩
  · exact absurd hf hok

/-- Witness of `release_after_load_keeps_converter`: the sample movie in a
pixel format that needs a converter; after load and release `sws_ctx` is
still allocated. -/
theorem release_after_load_keeps_converter_witness :
    ¬ prepare_fails plain_env converted_movie ∧
    (ffmpeg_release_movie_objects
        (ffmpeg_prepare_movie plain_env converted_movie true initial_state).2).sws_ctx = true :=
  ⟨by unfold prepare_fails prepare_fails_early exceeds_max_texture_size; decide,
    (release_after_load_keeps_converter plain_env converted_movie true initial_state
      (by unfold prepare_fails prepare_fails_early exceeds_max_texture_size; decide)).1⟩

/-! ## Filling the ring buffer from a container without decode errors

From here on the single statements are used through the facts proved about
them above, not through their definitions. -/

attribute [irreducible] buffer_yuv_frame draw_yuv_frame present_oldest State.poll_clock State.emit
  State.arm_start State.advance_read State.count_frame State.set_reads State.set_polls

@[simp] theorem ring_ops_nil : ring_ops [] = [] := rfl

@[simp] theorem ring_ops_append (a b : List Event) :
    ring_ops (a ++ b) = ring_ops a ++ ring_ops b := by
  simp [ring_ops]

@[simp] theorem ring_ops_push (k : Nat) : ring_ops [Event.push k] = [RingOp.push k] := rfl
@[simp] theorem ring_ops_audio (k : Nat) : ring_ops [Event.audio k] = [] := rfl
@[simp] theorem ring_ops_play : ring_ops [Event.play] = [] := rfl

@[simp] theorem ring_ops_request (b : Bool) (k : Nat) :
    ring_ops [if b then Event.defer k else Event.draw k] = [RingOp.present k b] := by
  cases b <;> rfl

theorem same_ring_refl (s : State) : SameRing s s := ⟨rfl, rfl, rfl, rfl, rfl⟩

theorem audio_packet_clean {as : Int} {r : FrameRead} {vs : Int} (hc : clean_read vs as r)
    (s : State) (ha : s.audiostream = as) :
    (audio_packet r.packet s).1 = none ∧ SameRing s (audio_packet r.packet s).2 := by
  unfold audio_packet
  by_cases h : r.packet.stream_index = s.audiostream
  · obtain ⟨h1, h2⟩ := hc.2.2 (h.trans ha)
    rw [if_pos h, if_neg (not_lt.mpr h1), if_neg h2]
    split_ifs
    · exact ⟨rfl, by simp, by simp, by simp, by simp, by simp⟩
    · exact ⟨rfl, by simp, by simp, by simp, by simp, by simp⟩
    · exact ⟨rfl, by simp, by simp, by simp, by simp, by simp⟩
  · rw [if_neg h]
    exact ⟨rfl, same_ring_refl s⟩

theorem video_packet_not_decodable {vs as : Int} {r : FrameRead} (hc : clean_read vs as r)
    (env : Env) (s : State) (hv : s.videostream = vs) (hd : decodable vs r = false) :
    video_packet env r.packet s = (none, s) := by
  unfold video_packet
  by_cases h : r.packet.stream_index = s.videostream
  · obtain ⟨h1, h2⟩ := hc.2.1 (h.trans hv)
    have h3 : ¬ 0 ≤ r.packet.vrecv := by
      intro h3
      simp [decodable, h.trans hv, h3] at hd
    rw [if_pos h, if_neg (not_lt.mpr h1), if_neg h2, if_neg h3]
  · rw [if_neg h]

theorem video_packet_decodable {vs as : Int} {r : FrameRead} (hc : clean_read vs as r)
    (env : Env) (s : State) (hv : s.videostream = vs) (hd : decodable vs r = true) :
    video_packet env r.packet s =
      if (s.vbuffer_write + 1) % VIDEO_BUFFER_SIZE = s.vbuffer_read then
        (some r.packet.vrecv, present_oldest env (buffer_yuv_frame env s.poll_clock))
      else (none, buffer_yuv_frame env s.poll_clock) := by
  simp only [decodable, Bool.and_eq_true, decide_eq_true_eq] at hd
  obtain ⟨h1, h2⟩ := hc.2.1 hd.1
  unfold video_packet
  rw [if_pos (hd.1.trans hv.symm), if_neg (not_lt.mpr h1), if_neg h2, if_pos hd.2]
  simp only [buffer_yuv_frame_vbuffer_write, buffer_yuv_frame_vbuffer_read,
    poll_clock_vbuffer_write, poll_clock_vbuffer_read]

theorem buffered_of_same_ring {s s2 f : State} {k : Nat} (h : SameRing s s2)
    (hb : Buffered s2 f k) : Buffered s f k := by
  obtain ⟨g, t, r, w, d⟩ := h
  obtain ⟨t', r', w', d', g'⟩ := hb
  exact ⟨by rw [t', t, w], by rw [r', r], by rw [w', w], by rw [d', d], by rw [g', g]⟩

theorem Filled.of_same_ring {env : Env} {s s2 f : State} {n : Nat} (h : SameRing s s2)
    (hb : Filled env s2 f n) : Filled env s f n := by
  obtain ⟨g, t, r, w, d⟩ := h
  obtain ⟨t', r', w', d', g'⟩ := hb
  exact ⟨by rw [t', t, w, r, d], by rw [r', r], by rw [w', r], by rw [d', d], by rw [g', g]⟩

theorem same_ring_push (env : Env) (s s2 : State)
    (h : SameRing (buffer_yuv_frame env s.poll_clock) s2) :
    s2.globals = s.globals ∧ ring_ops s2.trace = ring_ops s.trace ++ [RingOp.push s.vbuffer_write] ∧
    s2.vbuffer_read = s.vbuffer_read ∧
    s2.vbuffer_write = (s.vbuffer_write + 1) % VIDEO_BUFFER_SIZE ∧
    s2.defer_calls = s.defer_calls := by
  obtain ⟨g, t, r, w, d⟩ := h
  simp only [buffer_yuv_frame_globals, poll_clock_globals, buffer_yuv_frame_trace,
    poll_clock_trace, ring_ops_append, ring_ops_push, buffer_yuv_frame_vbuffer_read,
    poll_clock_vbuffer_read, buffer_yuv_frame_vbuffer_write, poll_clock_vbuffer_write,
    buffer_yuv_frame_defer_calls, poll_clock_defer_calls] at g t r w d
  exact ⟨g, t, r, w, d⟩

theorem videostream_of_globals {s s' : State} (h : s'.globals = s.globals) :
    s'.videostream = s.videostream := videostream_of_session (session_of_globals h)

theorem audiostream_of_globals {s s' : State} (h : s'.globals = s.globals) :
    s'.audiostream = s.audiostream := audiostream_of_session (session_of_globals h)

/-- The packet loop over reads without decode errors, when `n` more pictures
fill the ring: with fewer than `n` decodable packets it buffers them all and
ends on exhaustion; otherwise it buffers `n`, presents the slot under the read
cursor and stops there. -/
theorem read_loop_clean (env : Env) (vs as : Int) (l : List FrameRead) :
    ∀ (s : State) (n : Nat), (∀ r ∈ l, clean_read vs as r) →
      s.videostream = vs → s.audiostream = as → 1 ≤ n → n ≤ 10 →
      s.vbuffer_read < 10 → s.vbuffer_write < 10 →
      (s.vbuffer_write + n) % VIDEO_BUFFER_SIZE = s.vbuffer_read →
      (l.countP (decodable vs) < n →
        (read_loop env l s).1 < 0 ∧ (read_loop env l s).2.1 = [] ∧
        Buffered s (read_loop env l s).2.2 (l.countP (decodable vs))) ∧
      (n ≤ l.countP (decodable vs) →
        0 ≤ (read_loop env l s).1 ∧ Filled env s (read_loop env l s).2.2 n ∧
        (∀ r ∈ (read_loop env l s).2.1, clean_read vs as r) ∧
        (read_loop env l s).2.1.countP (decodable vs) + n = l.countP (decodable vs)) := by
  induction l with
  | nil =>
    intro s n _ _ _ h1 _ _ hw _
    refine ⟨fun _ => ⟨AVERROR_EOF_neg, rfl, ?_⟩, fun h => ?_⟩
    · refine ⟨by simp [read_loop, pushes], rfl, ?_, rfl, rfl⟩
      simp only [read_loop, List.countP_nil, Nat.add_zero, VIDEO_BUFFER_SIZE]
      omega
    · simp at h; omega
  | cons r l ih =>
    intro s n hclean hv ha h1 h10 hr hw hn
    have hcr : clean_read vs as r := hclean r (List.mem_cons_self _ _)
    have hcl : ∀ x ∈ l, clean_read vs as x := fun x hx => hclean x (List.mem_cons_of_mem _ hx)
    have h0 : ¬ r.ret < 0 := not_lt.mpr hcr.1
    unfold VIDEO_BUFFER_SIZE at hn
    by_cases hd : decodable vs r = true
    · have hcount : (r :: l).countP (decodable vs) = l.countP (decodable vs) + 1 := by
        simp [List.countP_cons, hd]
      have hvp := video_packet_decodable hcr env s hv hd
      rw [hcount]
      by_cases hfull : (s.vbuffer_write + 1) % VIDEO_BUFFER_SIZE = s.vbuffer_read
      · rw [if_pos hfull] at hvp
        have hn1 : n = 1 := by unfold VIDEO_BUFFER_SIZE at hfull; omega
        subst hn1
        rw [read_loop_cons_vbreak env l h0 hvp]
        refine ⟨fun h => by omega, fun _ => ⟨?_, ?_, hcl, rfl⟩⟩
        · have := hd
          simp only [decodable, Bool.and_eq_true, decide_eq_true_eq] at this
          exact this.2
        · refine ⟨?_, ?_, ?_, ?_, ?_⟩
          · rw [present_oldest_trace]
            simp only [buffer_yuv_frame_trace, poll_clock_trace, ring_ops_append, ring_ops_push,
              ring_ops_request, buffer_yuv_frame_vbuffer_read, poll_clock_vbuffer_read,
              buffer_yuv_frame_defer_calls, poll_clock_defer_calls, buffer_yuv_frame_vbuffer_write,
              poll_clock_vbuffer_write, pushes, List.append_assoc]
          · simp only [present_oldest_vbuffer_read, buffer_yuv_frame_vbuffer_read,
              poll_clock_vbuffer_read]
          · simp only [present_oldest_vbuffer_write, buffer_yuv_frame_vbuffer_write,
              poll_clock_vbuffer_write]
            exact hfull
          · simp only [present_oldest_defer_calls, buffer_yuv_frame_defer_calls,
              poll_clock_defer_calls]
          · simp only [present_oldest_globals, buffer_yuv_frame_globals, poll_clock_globals]
      · rw [if_neg hfull] at hvp
        have hn2 : 2 ≤ n := by unfold VIDEO_BUFFER_SIZE at hfull; omega
        obtain ⟨m, rfl⟩ : ∃ m, n = m + 1 := ⟨n - 1, by omega⟩
        obtain ⟨hnone, hsame⟩ := audio_packet_clean hcr (buffer_yuv_frame env s.poll_clock)
          ((audiostream_of_globals (by simp)).trans ha)
        rcases hap : audio_packet r.packet (buffer_yuv_frame env s.poll_clock) with ⟨o, s2⟩
        rw [hap] at hnone hsame
        simp only [] at hnone hsame
        subst hnone
        rw [read_loop_cons_continue env l h0 hvp hap]
        obtain ⟨g, t, rr, ww, dd⟩ := same_ring_push env s s2 hsame
        have hih := ih s2 m hcl ((videostream_of_globals g).trans hv)
          ((audiostream_of_globals g).trans ha) (by omega) (by omega) (by omega)
          (by rw [ww]; unfold VIDEO_BUFFER_SIZE; omega)
          (by rw [ww, rr]; unfold VIDEO_BUFFER_SIZE; omega)
        refine ⟨fun h => ?_, fun h => ?_⟩
        · obtain ⟨e1, e2, t', r', w', d', g'⟩ := hih.1 (by omega)
          refine ⟨e1, e2, ?_, by rw [r', rr], ?_, by rw [d', dd], by rw [g', g]⟩
          · rw [t', t, ww]; simp only [pushes, List.append_assoc, List.singleton_append]
          · rw [w', ww]; unfold VIDEO_BUFFER_SIZE; omega
        · obtain ⟨e1, ⟨t', r', w', d', g'⟩, e3, e4⟩ := hih.2 (by omega)
          refine ⟨e1, ⟨?_, by rw [r', rr], by rw [w', rr], by rw [d', dd], by rw [g', g]⟩,
            e3, by omega⟩
          rw [t', t, ww, rr, dd]
          simp only [pushes, List.append_assoc, List.singleton_append, List.cons_append,
            List.nil_append]
    · have hd' : decodable vs r = false := by simpa using hd
      have hcount : (r :: l).countP (decodable vs) = l.countP (decodable vs) := by
        simp [List.countP_cons, hd']
      have hvp := video_packet_not_decodable hcr env s hv hd'
      obtain ⟨hnone, hsame⟩ := audio_packet_clean hcr s ha
      rcases hap : audio_packet r.packet s with ⟨o, s2⟩
      rw [hap] at hnone hsame
      simp only [] at hnone hsame
      subst hnone
      rw [read_loop_cons_continue env l h0 hvp hap, hcount]
      obtain ⟨g, t, rr, ww, dd⟩ := hsame
      have hih := ih s2 n hcl ((videostream_of_globals g).trans hv)
        ((audiostream_of_globals g).trans ha) h1 h10 (by omega) (by omega)
        (by rw [ww, rr]; exact hn)
      refine ⟨fun h => ?_, fun h => ?_⟩
      · obtain ⟨e1, e2, hb⟩ := hih.1 h
        exact ⟨e1, e2, buffered_of_same_ring ⟨g, t, rr, ww, dd⟩ hb⟩
      · obtain ⟨e1, hf, e3, e4⟩ := hih.2 h
        exact ⟨e1, hf.of_same_ring ⟨g, t, rr, ww, dd⟩, e3, e4⟩

/-! ## The tick seen from the ring buffer (C1) -/

theorem loop_start_facts (env : Env) (s : State) :
    (loop_start env s).trace = s.trace ∧ (loop_start env s).vbuffer_read = s.vbuffer_read ∧
    (loop_start env s).vbuffer_write = s.vbuffer_write ∧
    (loop_start env s).defer_calls = s.defer_calls ∧ (loop_start env s).reads = s.reads ∧
    (loop_start env s).session = s.session := by
  unfold loop_start
  split
  · exact ⟨by simp, by simp, by simp, by simp, by simp, arm_start_session env s⟩
  · exact ⟨rfl, rfl, rfl, rfl, rfl, rfl⟩

theorem read_packets_eq (env : Env) (s : State) :
    read_packets env s
      = ((read_loop env s.reads (loop_start env s)).1,
         (read_loop env s.reads (loop_start env s)).2.2.set_reads
           (read_loop env s.reads (loop_start env s)).2.1) := by
  have h := (loop_start_facts env s).2.2.2.2.1
  unfold read_packets
  simp only []
  rw [← h]
  rfl

theorem first_audio_ring (env : Env) (s : State) :
    ring_ops (first_audio env s).trace = ring_ops s.trace ∧
    (first_audio env s).defer_calls = s.defer_calls := by
  unfold first_audio
  split
  · refine ⟨by simp, ?_⟩
    simp only [emit_defer_calls, arm_start_defer_calls]
  · exact ⟨rfl, rfl⟩

theorem tick_body_eq_drain (env : Env) (s : State) :
    tick_body env s = drain env (read_loop env s.reads (loop_start env s)).1 (before_drain env s) := by
  unfold tick_body before_drain
  rw [read_packets_eq]

theorem before_drain_facts (env : Env) (s : State) :
    ring_ops (before_drain env s).trace
      = ring_ops (read_loop env s.reads (loop_start env s)).2.2.trace ∧
    (before_drain env s).vbuffer_read = (read_loop env s.reads (loop_start env s)).2.2.vbuffer_read ∧
    (before_drain env s).vbuffer_write
      = (read_loop env s.reads (loop_start env s)).2.2.vbuffer_write ∧
    (before_drain env s).defer_calls = (read_loop env s.reads (loop_start env s)).2.2.defer_calls ∧
    (before_drain env s).reads = (read_loop env s.reads (loop_start env s)).2.1 := by
  unfold before_drain
  rw [read_packets_eq]
  simp only [count_frame_trace, count_frame_vbuffer_read, count_frame_vbuffer_write,
    count_frame_defer_calls, count_frame_reads, first_audio_read, first_audio_write,
    first_audio_reads, set_reads_vbuffer_read, set_reads_vbuffer_write, set_reads_reads,
    (first_audio_ring env _).1, (first_audio_ring env _).2, set_reads_trace,
    set_reads_defer_calls, and_self]

theorem ring_eq {s : State} {v : RingView} (h1 : ring_ops s.trace = v.ops)
    (h2 : s.vbuffer_read = v.read) (h3 : s.vbuffer_write = v.write)
    (h4 : s.defer_calls = v.defer_calls) (h5 : s.reads = v.reads) : s.ring = v := by
  cases v
  simp only [State.ring] at *
  simp [h1, h2, h3, h4, h5]

/-- The tick on an exhausted container: it presents the slot under the read
cursor if the buffer is not empty, and returns false when the buffer is empty
after that. -/
theorem tick_body_exhausted (env : Env) (s : State) (h : s.reads = []) :
    (s.vbuffer_write = s.vbuffer_read →
      (tick_body env s).1 = false ∧ (tick_body env s).2.ring = s.ring) ∧
    (s.vbuffer_write ≠ s.vbuffer_read →
      (tick_body env s).1 = decide (s.vbuffer_write ≠ (s.vbuffer_read + 1) % VIDEO_BUFFER_SIZE) ∧
      (tick_body env s).2.ring =
        { ops := ring_ops s.trace ++
            [RingOp.present s.vbuffer_read (env.gl_defer_yuv_frame s.defer_calls s.vbuffer_read)]
          read := (s.vbuffer_read + 1) % VIDEO_BUFFER_SIZE
          write := s.vbuffer_write
          defer_calls := s.defer_calls + 1
          reads := [] }) := by
  obtain ⟨l1, l2, l3, l4, l5, -⟩ := loop_start_facts env s
  obtain ⟨b1, b2, b3, b4, b5⟩ := before_drain_facts env s
  rw [h] at b1 b2 b3 b4 b5
  simp only [read_loop] at b1 b2 b3 b4 b5
  rw [l1] at b1; rw [l2] at b2; rw [l3] at b3; rw [l4] at b4
  rw [tick_body_eq_drain, h]
  simp only [read_loop]
  rcases drain_effect env AVERROR_EOF (before_drain env s) with ⟨hp, -⟩ | ⟨-, he, e⟩ | ⟨-, hne, e⟩
  · exact absurd hp (not_le.mpr AVERROR_EOF_neg)
  · rw [b2, b3] at he
    refine ⟨fun _ => ?_, fun hne => absurd he hne⟩
    rw [e]
    exact ⟨rfl, ring_eq b1 b2 b3 b4 (b5.trans h.symm)⟩
  · rw [b2, b3] at hne
    refine ⟨fun he => absurd he hne, fun _ => ?_⟩
    rw [e]
    refine ⟨by simp only [b2, b3], ring_eq ?_ ?_ ?_ ?_ ?_⟩
    · rw [present_oldest_trace]
      simp only [ring_ops_append, ring_ops_request, b1, b2, b4]
    · simp only [present_oldest_vbuffer_read, b2]
    · simp only [present_oldest_vbuffer_write, b3]
    · simp only [present_oldest_defer_calls, b4]
    · simp only [present_oldest_reads, b5]

/-- The tick on a container without decode errors, when `n` more pictures fill
the ring. -/
theorem tick_body_clean (env : Env) (s : State) (n : Nat)
    (hclean : ∀ r ∈ s.reads, clean_read s.videostream s.audiostream r)
    (h1 : 1 ≤ n) (h10 : n ≤ 10) (hr : s.vbuffer_read < 10) (hw : s.vbuffer_write < 10)
    (hn : (s.vbuffer_write + n) % VIDEO_BUFFER_SIZE = s.vbuffer_read) :
    (s.reads.countP (decodable s.videostream) < n →
      (s.vbuffer_write + s.reads.countP (decodable s.videostream)) % VIDEO_BUFFER_SIZE
        ≠ s.vbuffer_read →
      (tick_body env s).1 =
        decide ((s.vbuffer_write + s.reads.countP (decodable s.videostream)) % VIDEO_BUFFER_SIZE
          ≠ (s.vbuffer_read + 1) % VIDEO_BUFFER_SIZE) ∧
      (tick_body env s).2.ring =
        { ops := ring_ops s.trace ++
            pushes s.vbuffer_write (s.reads.countP (decodable s.videostream)) ++
            [RingOp.present s.vbuffer_read (env.gl_defer_yuv_frame s.defer_calls s.vbuffer_read)]
          read := (s.vbuffer_read + 1) % VIDEO_BUFFER_SIZE
          write := (s.vbuffer_write + s.reads.countP (decodable s.videostream)) % VIDEO_BUFFER_SIZE
          defer_calls := s.defer_calls + 1
          reads := [] }) ∧
    (n ≤ s.reads.countP (decodable s.videostream) →
      (tick_body env s).1 = true ∧
      ∃ rem, (∀ r ∈ rem, clean_read s.videostream s.audiostream r) ∧
        rem.countP (decodable s.videostream) + n = s.reads.countP (decodable s.videostream) ∧
        (tick_body env s).2.ring =
          { ops := ring_ops s.trace ++ pushes s.vbuffer_write n ++
              [RingOp.present s.vbuffer_read
                (env.gl_defer_yuv_frame s.defer_calls s.vbuffer_read)]
            read := (s.vbuffer_read + 1) % VIDEO_BUFFER_SIZE
            write := s.vbuffer_read
            defer_calls := s.defer_calls + 1
            reads := rem }) := by
  obtain ⟨l1, l2, l3, l4, l5, l6⟩ := loop_start_facts env s
  obtain ⟨b1, b2, b3, b4, b5⟩ := before_drain_facts env s
  have hloop := read_loop_clean env s.videostream s.audiostream s.reads (loop_start env s) n hclean
    (videostream_of_session l6) (audiostream_of_session l6) h1 h10 (by rw [l2]; exact hr)
    (by rw [l3]; exact hw) (by rw [l2, l3]; exact hn)
  rw [tick_body_eq_drain]
  refine ⟨fun hlt hne => ?_, fun hle => ?_⟩
  · obtain ⟨hneg, hrem, t, r, w, d, -⟩ := hloop.1 hlt
    rw [l1, l3] at t; rw [l2] at r; rw [l3] at w; rw [l4] at d
    rw [t] at b1; rw [r] at b2; rw [w] at b3; rw [d] at b4; rw [hrem] at b5
    rcases drain_effect env (read_loop env s.reads (loop_start env s)).1 (before_drain env s)
      with ⟨hp, -⟩ | ⟨-, he, -⟩ | ⟨-, -, e⟩
    · omega
    · rw [b2, b3] at he; exact absurd he hne
    · rw [e]
      refine ⟨by simp only [b2, b3], ring_eq ?_ ?_ ?_ ?_ ?_⟩
      · rw [present_oldest_trace]
        simp only [ring_ops_append, ring_ops_request, b1, b2, b4]
      · simp only [present_oldest_vbuffer_read, b2]
      · simp only [present_oldest_vbuffer_write, b3]
      · simp only [present_oldest_defer_calls, b4]
      · simp only [present_oldest_reads, b5]
  · obtain ⟨hpos, ⟨t, r, w, d, -⟩, hc, hcount⟩ := hloop.2 hle
    rw [l1, l2, l3, l4] at t; rw [l2] at r w; rw [l4] at d
    rw [t] at b1; rw [r] at b2; rw [w] at b3; rw [d] at b4
    rcases drain_effect env (read_loop env s.reads (loop_start env s)).1 (before_drain env s)
      with ⟨-, e⟩ | ⟨hneg, -⟩ | ⟨hneg, -⟩
    · rw [e]
      exact ⟨rfl, _, hc, hcount, ring_eq b1 b2 b3 b4 b5⟩
    · omega
    · omega

theorem run_ticks_succ {env : Env} {fuel : Nat} {u : Bool} {n : Nat} {s : State}
    {res : List Bool × State} (h : run_ticks env fuel u (n + 1) s = some res) :
    ∃ r s1 rs, ffmpeg_update_movie_sample env fuel u s = some (r, s1) ∧
      run_ticks env fuel u n s1 = some (rs, res.2) ∧ res.1 = r :: rs := by
  unfold run_ticks at h
  rcases ht : ffmpeg_update_movie_sample env fuel u s with _ | ⟨r, s1⟩
  · rw [ht] at h; simp at h
  · rw [ht] at h
    simp only [] at h
    rcases hr : run_ticks env fuel u n s1 with _ | ⟨rs, s2⟩
    · rw [hr] at h; simp at h
    · rw [hr] at h
      simp only [Option.some.injEq] at h
      subst h
      exact ⟨r, s1, rs, rfl, hr, rfl⟩

theorem set_polls_ring (p : Nat) (s : State) : (s.set_polls p).ring = s.ring := by
  unfold State.ring
  simp only [set_polls_trace, set_polls_vbuffer_read, set_polls_vbuffer_write,
    set_polls_defer_calls, set_polls_reads]

/-- A tick that returns, on an open session, in terms of the tick body. -/
theorem tick_ring {env : Env} {fuel : Nat} {u : Bool} {s s' : State} {r : Bool}
    (hopen : s.format_ctx = true)
    (h : ffmpeg_update_movie_sample env fuel u s = some (r, s')) :
    r = (tick_body env s).1 ∧ s'.ring = (tick_body env s).2.ring ∧ s'.session = s.session := by
  obtain ⟨hr, p, rfl⟩ := tick_some hopen h
  refine ⟨hr, set_polls_ring p _, ?_⟩
  rw [← tick_body_session env s]
  exact session_of_globals (set_polls_globals p _)

theorem ring_fields {s : State} {v : RingView} (h : s.ring = v) :
    ring_ops s.trace = v.ops ∧ s.vbuffer_read = v.read ∧ s.vbuffer_write = v.write ∧
    s.defer_calls = v.defer_calls ∧ s.reads = v.reads := by
  subst h
  exact ⟨rfl, rfl, rfl, rfl, rfl⟩

/-- A tick on an exhausted container with a non-empty buffer, on ring views. -/
theorem tick_exhausted_view {env : Env} {fuel : Nat} {u : Bool} {s s' : State} {r : Bool}
    (v : RingView) (hopen : s.format_ctx = true) (hv : s.ring = v) (hreads : v.reads = [])
    (hne : v.write ≠ v.read) (h : ffmpeg_update_movie_sample env fuel u s = some (r, s')) :
    r = decide (v.write ≠ (v.read + 1) % VIDEO_BUFFER_SIZE) ∧
    s'.ring =
      { ops := v.ops ++ [RingOp.present v.read (env.gl_defer_yuv_frame v.defer_calls v.read)]
        read := (v.read + 1) % VIDEO_BUFFER_SIZE
        write := v.write
        defer_calls := v.defer_calls + 1
        reads := [] } ∧
    s'.format_ctx = true := by
  obtain ⟨f1, f2, f3, f4, f5⟩ := ring_fields hv
  obtain ⟨hr, hring, hsess⟩ := tick_ring hopen h
  obtain ⟨e1, e2⟩ := (tick_body_exhausted env s (f5.trans hreads)).2 (by rw [f2, f3]; exact hne)
  rw [f1, f2, f3, f4] at e2
  rw [f2, f3] at e1
  exact ⟨hr.trans e1, hring.trans e2, (format_ctx_of_session hsess).trans hopen⟩

/-- A tick on an exhausted container with an empty buffer, on ring views. -/
theorem tick_finished_view {env : Env} {fuel : Nat} {u : Bool} {s s' : State} {r : Bool}
    (v : RingView) (hopen : s.format_ctx = true) (hv : s.ring = v) (hreads : v.reads = [])
    (he : v.write = v.read) (h : ffmpeg_update_movie_sample env fuel u s = some (r, s')) :
    r = false ∧ s'.ring = v := by
  obtain ⟨f1, f2, f3, f4, f5⟩ := ring_fields hv
  obtain ⟨hr, hring, -⟩ := tick_ring hopen h
  obtain ⟨e1, e2⟩ := (tick_body_exhausted env s (f5.trans hreads)).1 (by rw [f2, f3]; exact he)
  exact ⟨hr.trans e1, hring.trans (e2.trans hv)⟩

/-- C1 (as the code behaves): on an open session with both cursors at 0 and no
audio stream, whose container delivers exactly 5 video packets that each
decode to one picture, with a renderer that never defers, five ticks buffer the
5 pictures into slots 0 to 4, draw slots 0, 1, 2, 3, 4 in this order, one per
tick, and return true, true, true, true, false: the tick that draws the last
picture returns stop, with both cursors at 5; a sixth tick draws nothing and
returns stop again.  Without the frame limiter the ticks always return; with
it they return when time passes, for a timer of at least 1000 counts per
second and a positive frame rate. -/
theorem scenario_five_frames (env : Env) (fuel : Nat) (u : Bool) (s : State)
    (hopen : s.format_ctx = true) (hr : s.vbuffer_read = 0) (hw : s.vbuffer_write = 0)
    (hvs : 0 ≤ s.videostream) (has : s.audiostream < 0) (hlen : s.reads.length = 5)
    (hgood : ∀ r ∈ s.reads, 0 ≤ r.ret ∧ r.packet.stream_index = s.videostream ∧
      0 ≤ r.packet.vsend ∧ 0 ≤ r.packet.vrecv)
    (hnd : ∀ n k, env.gl_defer_yuv_frame n k = false) :
    (∀ res, run_ticks env fuel u 5 s = some res →
      res.1 = [true, true, true, true, false] ∧
      ring_ops res.2.trace = ring_ops s.trace ++
        [RingOp.push 0, RingOp.push 1, RingOp.push 2, RingOp.push 3, RingOp.push 4,
         RingOp.present 0 false, RingOp.present 1 false, RingOp.present 2 false,
         RingOp.present 3 false, RingOp.present 4 false] ∧
      res.2.vbuffer_read = 5 ∧ res.2.vbuffer_write = 5 ∧
      ∀ res6, run_ticks env fuel u 1 res.2 = some res6 →
        res6.1 = [false] ∧ ring_ops res6.2.trace = ring_ops res.2.trace ∧
        res6.2.vbuffer_read = 5 ∧ res6.2.vbuffer_write = 5) ∧
    (∃ res, run_ticks env fuel false 5 s = some res) ∧
    (clock_unbounded env → 1000 ≤ s.timer_freq → 0 < s.movie_fps →
      ∃ fuel' res, run_ticks env fuel' true 5 s = some res) := by
  refine ⟨fun res h => ?_, run_ticks_no_limiter env fuel 5 s,
    fun hc htf hfps => run_ticks_terminates env hc true 5 s htf hfps⟩
  have hclean : ∀ r ∈ s.reads, clean_read s.videostream s.audiostream r := by
    intro r hr
    obtain ⟨g1, g2, g3, g4⟩ := hgood r hr
    refine ⟨g1, fun _ => ⟨g3, ?_⟩, fun h => ?_⟩
    · intro h; rw [h] at g4; exact absurd g4 (by decide)
    · rw [g2] at h; omega
  have hcount : s.reads.countP (decodable s.videostream) = 5 := by
    rw [← hlen, List.countP_eq_length]
    intro r hr
    obtain ⟨-, g2, -, g4⟩ := hgood r hr
    simp [decodable, g2, g4]
  obtain ⟨r1, s1, rs1, t1, h1, e1⟩ := run_ticks_succ h
  obtain ⟨r2, s2, rs2, t2, h2, e2⟩ := run_ticks_succ h1
  obtain ⟨r3, s3, rs3, t3, h3, e3⟩ := run_ticks_succ h2
  obtain ⟨r4, s4, rs4, t4, h4, e4⟩ := run_ticks_succ h3
  obtain ⟨r5, s5, rs5, t5, h5, e5⟩ := run_ticks_succ h4
  simp only [run_ticks, Option.some.injEq, Prod.mk.injEq] at h5
  obtain ⟨rfl, rfl⟩ := h5
  simp only at e1 e2 e3 e4 e5
  -- tick 1 buffers the five pictures and draws slot 0
  obtain ⟨q1, v1, o1⟩ := tick_ring hopen t1
  obtain ⟨b1, w1⟩ := (tick_body_clean env s 10 hclean (by decide) (by decide) (by omega)
    (by omega) (by rw [hr, hw]; decide)).1 (by omega) (by rw [hcount, hr, hw]; decide)
  rw [hcount, hr, hw, hnd] at w1
  rw [hcount, hr, hw] at b1
  have f1 : s1.format_ctx = true := (format_ctx_of_session o1).trans hopen
  -- ticks 2 to 5 drain the buffer
  obtain ⟨q2, v2, f2⟩ := tick_exhausted_view _ f1 (v1.trans w1) rfl
    (by simp [VIDEO_BUFFER_SIZE]) t2
  obtain ⟨q3, v3, f3⟩ := tick_exhausted_view _ f2 v2 rfl (by simp [VIDEO_BUFFER_SIZE]) t3
  obtain ⟨q4, v4, f4⟩ := tick_exhausted_view _ f3 v3 rfl (by simp [VIDEO_BUFFER_SIZE]) t4
  obtain ⟨q5, v5, f5⟩ := tick_exhausted_view _ f4 v4 rfl (by simp [VIDEO_BUFFER_SIZE]) t5
  simp only [hnd] at v5
  obtain ⟨g1, g2, g3, -, -⟩ := ring_fields v5
  refine ⟨?_, ?_, by rw [g2]; simp [VIDEO_BUFFER_SIZE], by rw [g3]; simp [VIDEO_BUFFER_SIZE],
    fun res6 h6 => ?_⟩
  · rw [e1, e2, e3, e4, e5, q1.trans b1, q2, q3, q4, q5]
    simp [VIDEO_BUFFER_SIZE]
  · rw [g1]
    simp [pushes, VIDEO_BUFFER_SIZE]
  · obtain ⟨r6, s6, rs6, t6, h6', e6⟩ := run_ticks_succ h6
    simp only [run_ticks, Option.some.injEq, Prod.mk.injEq] at h6'
    obtain ⟨rfl, hs6⟩ := h6'
    obtain ⟨q6, v6⟩ := tick_finished_view _ f5 v5 rfl (by simp [VIDEO_BUFFER_SIZE]) t6
    obtain ⟨k1, k2, k3, -, -⟩ := ring_fields v6
    rw [← hs6]
    refine ⟨by rw [e6, q6], by rw [k1, g1], by rw [k2]; simp [VIDEO_BUFFER_SIZE],
      by rw [k3]; simp [VIDEO_BUFFER_SIZE]⟩

/-- Witness of `scenario_five_frames`: five decodable video packets on an open
session without audio, a renderer that never defers, no frame limiter. -/
theorem scenario_five_frames_witness :
    ∃ res, run_ticks plain_env 0 false 5 (open_session 0 0 (List.replicate 5 (video_read 0)))
        = some res ∧
      res.1 = [true, true, true, true, false] ∧ res.2.vbuffer_read = 5 ∧ res.2.vbuffer_write = 5 :=
  match (scenario_five_frames plain_env 0 false (open_session 0 0 (List.replicate 5 (video_read 0)))
      (by decide) (by decide) (by decide) (by decide) (by decide) (by decide) (by decide)
      (fun _ _ => rfl)) with
  | ⟨h, ⟨res, hres⟩, _⟩ => ⟨res, hres, (h res hres).1, (h res hres).2.2.1, (h res hres).2.2.2.1⟩

/-- C1 fails as stated: in the scenario the fifth tick, which draws slot 4,
returns false; the ticks return true only four times. -/
theorem fifth_tick_returns_stop :
    (run_ticks plain_env 0 false 6 (open_session 0 0 (List.replicate 5 (video_read 0)))).map
        (fun x => (x.1, x.2.trace, x.2.vbuffer_read, x.2.vbuffer_write))
      = some ([true, true, true, true, false, false],
          [Event.push 0, Event.push 1, Event.push 2, Event.push 3, Event.push 4,
           Event.draw 0, Event.draw 1, Event.draw 2, Event.draw 3, Event.draw 4], 5, 5) := by
  with_unfolding_all decide

/-! ## No push overwrites a picture that was not presented (C5) -/

theorem ring_check_push (ops : List RingOp) (k : Nat) :
    ring_check (ops ++ [RingOp.push k])
      = (k :: (ring_check ops).1, (ring_check ops).2 && !((ring_check ops).1.contains k)) := by
  simp [ring_check, List.foldl_append, ring_step]

theorem ring_check_present (ops : List RingOp) (k : Nat) (d : Bool) :
    ring_check (ops ++ [RingOp.present k d])
      = ((ring_check ops).1.filter (fun j => j != k), (ring_check ops).2) := by
  simp [ring_check, List.foldl_append, ring_step]

theorem ring_inv_nil : RingInv [] 0 0 := by
  refine ⟨rfl, by decide, by decide, fun k => ?_⟩
  simp [ring_check]

theorem ring_inv_push {ops : List RingOp} {r w : Nat} (h : RingInv ops r w)
    (hne : (w + 1) % 10 ≠ r) : RingInv (ops ++ [RingOp.push w]) r ((w + 1) % 10) := by
  obtain ⟨hok, hr, hw, hmem⟩ := h
  have hnot : w ∉ (ring_check ops).1 := by
    intro hin
    have := (hmem w).mp hin
    omega
  rw [RingInv, ring_check_push]
  refine ⟨by simp [hok, hnot], hr, by omega, fun k => ?_⟩
  simp only [List.mem_cons, hmem k]
  constructor
  · rintro (rfl | ⟨h1, h2⟩) <;> omega
  · rintro ⟨h1, h2⟩
    by_cases hk : k = w
    · exact Or.inl hk
    · exact Or.inr ⟨h1, by omega⟩

theorem ring_inv_present {ops : List RingOp} {r w : Nat} (d : Bool) (h : RingInv ops r w)
    (hne : w ≠ r) : RingInv (ops ++ [RingOp.present r d]) ((r + 1) % 10) w := by
  obtain ⟨hok, hr, hw, hmem⟩ := h
  rw [RingInv, ring_check_present]
  refine ⟨hok, by omega, hw, fun k => ?_⟩
  simp only [List.mem_filter, hmem k, bne_iff_ne, ne_eq]
  constructor
  · rintro ⟨⟨h1, h2⟩, h3⟩; omega
  · rintro ⟨h1, h2⟩; omega

theorem ring_inv_push_present {ops : List RingOp} {r w : Nat} (d : Bool) (h : RingInv ops r w)
    (hfull : (w + 1) % 10 = r) :
    RingInv (ops ++ [RingOp.push w] ++ [RingOp.present r d]) ((r + 1) % 10) ((w + 1) % 10) := by
  obtain ⟨hok, hr, hw, hmem⟩ := h
  have hnot : w ∉ (ring_check ops).1 := by
    intro hin
    have := (hmem w).mp hin
    omega
  rw [RingInv, ring_check_present, ring_check_push]
  refine ⟨by simp [hok, hnot], by omega, by omega, fun k => ?_⟩
  simp only [List.mem_filter, List.mem_cons, hmem k, bne_iff_ne, ne_eq]
  constructor
  · rintro ⟨rfl | ⟨h1, h2⟩, h3⟩ <;> omega
  · rintro ⟨h1, h2⟩
    by_cases hk : k = w
    · exact ⟨Or.inl hk, by omega⟩
    · exact ⟨Or.inr ⟨h1, by omega⟩, by omega⟩

theorem ring_inv_of_same {s s' : State} (h : s.ring_inv)
    (ht : ring_ops s'.trace = ring_ops s.trace) (hr : s'.vbuffer_read = s.vbuffer_read)
    (hw : s'.vbuffer_write = s.vbuffer_write) : s'.ring_inv := by
  unfold State.ring_inv at *
  rw [ht, hr, hw]; exact h

theorem ring_inv_buffer (env : Env) {s : State} (h : s.ring_inv)
    (hne : (s.vbuffer_write + 1) % VIDEO_BUFFER_SIZE ≠ s.vbuffer_read) :
    (buffer_yuv_frame env s.poll_clock).ring_inv := by
  unfold State.ring_inv at *
  simp only [buffer_yuv_frame_trace, poll_clock_trace, ring_ops_append, ring_ops_push,
    buffer_yuv_frame_vbuffer_read, poll_clock_vbuffer_read, buffer_yuv_frame_vbuffer_write,
    poll_clock_vbuffer_write]
  exact ring_inv_push h hne

theorem ring_inv_buffer_present (env : Env) {s : State} (h : s.ring_inv)
    (hfull : (s.vbuffer_write + 1) % VIDEO_BUFFER_SIZE = s.vbuffer_read) :
    (present_oldest env (buffer_yuv_frame env s.poll_clock)).ring_inv := by
  unfold State.ring_inv at *
  rw [present_oldest_trace]
  simp only [buffer_yuv_frame_trace, poll_clock_trace, ring_ops_append, ring_ops_push,
    ring_ops_request, present_oldest_vbuffer_read, present_oldest_vbuffer_write,
    buffer_yuv_frame_vbuffer_read, poll_clock_vbuffer_read, buffer_yuv_frame_vbuffer_write,
    poll_clock_vbuffer_write, buffer_yuv_frame_defer_calls, poll_clock_defer_calls]
  exact ring_inv_push_present _ h hfull

theorem ring_inv_present_oldest (env : Env) {s : State} (h : s.ring_inv)
    (hne : s.vbuffer_write ≠ s.vbuffer_read) : (present_oldest env s).ring_inv := by
  unfold State.ring_inv at *
  rw [present_oldest_trace]
  simp only [ring_ops_append, ring_ops_request, present_oldest_vbuffer_read,
    present_oldest_vbuffer_write]
  exact ring_inv_present _ h hne

theorem video_packet_ring_inv (env : Env) (p : AVPacket) {s : State} (h : s.ring_inv) :
    (video_packet env p s).2.ring_inv := by
  rcases hv : video_packet env p s with ⟨_ | ret, s'⟩
  · rcases video_packet_continue hv with rfl | ⟨rfl, hne⟩
    · exact h
    · exact ring_inv_buffer env h hne
  · rcases video_packet_break hv with ⟨-, rfl⟩ | ⟨-, rfl, hfull⟩
    · exact h
    · exact ring_inv_buffer_present env h hfull

theorem audio_packet_ring_inv (p : AVPacket) {s : State} (h : s.ring_inv) :
    (audio_packet p s).2.ring_inv := by
  rcases ha : audio_packet p s with ⟨_ | ret, s'⟩
  · rcases audio_packet_continue ha with rfl | rfl | rfl
    · exact h
    · exact ring_inv_of_same h (by simp) (by simp) (by simp)
    · exact ring_inv_of_same h (by simp) (by simp) (by simp)
  · rcases audio_packet_break ha with ⟨-, rfl⟩
    exact ring_inv_of_same h (by simp) (by simp) (by simp)

theorem read_loop_ring_inv (env : Env) (l : List FrameRead) :
    ∀ s : State, s.ring_inv → (read_loop env l s).2.2.ring_inv := by
  induction l with
  | nil => intro s h; exact h
  | cons r rest ih =>
    intro s h
    have hv := video_packet_ring_inv env r.packet h
    rcases read_loop_cons_cases env r rest s with ⟨-, e⟩ | ⟨-, ret, s1, hvp, e⟩ |
      ⟨-, s1, ret, s2, hvp, hap, e⟩ | ⟨-, s1, s2, hvp, hap, e⟩
    · rw [e]; exact h
    · rw [e]; rw [hvp] at hv; exact hv
    · rw [e]; rw [hvp] at hv
      have ha := audio_packet_ring_inv r.packet hv
      rw [hap] at ha; exact ha
    · rw [e]; rw [hvp] at hv
      have ha := audio_packet_ring_inv r.packet hv
      rw [hap] at ha
      exact ih s2 ha

theorem tick_body_ring_inv (env : Env) {s : State} (h : s.ring_inv) :
    (tick_body env s).2.ring_inv := by
  obtain ⟨l1, l2, l3, -, -, -⟩ := loop_start_facts env s
  obtain ⟨b1, b2, b3, -, -⟩ := before_drain_facts env s
  have h0 : (loop_start env s).ring_inv := ring_inv_of_same h (by rw [l1]) l2 l3
  have h1 := read_loop_ring_inv env s.reads _ h0
  have h2 : (before_drain env s).ring_inv := ring_inv_of_same h1 b1 b2 b3
  rw [tick_body_eq_drain]
  rcases drain_effect env (read_loop env s.reads (loop_start env s)).1 (before_drain env s)
    with ⟨-, e⟩ | ⟨-, -, e⟩ | ⟨-, hne, e⟩
  · rw [e]; exact h2
  · rw [e]; exact h2
  · rw [e]; exact ring_inv_present_oldest env h2 hne

theorem tick_ring_inv {env : Env} {fuel : Nat} {u : Bool} {s s' : State} {r : Bool}
    (h : s.ring_inv) (ht : ffmpeg_update_movie_sample env fuel u s = some (r, s')) :
    s'.ring_inv := by
  by_cases hopen : s.format_ctx = true
  · obtain ⟨-, p, rfl⟩ := tick_some hopen ht
    exact ring_inv_of_same (tick_body_ring_inv env h) (by simp) (by simp) (by simp)
  · have hclosed : s.format_ctx = false := by simpa using hopen
    rw [tick_closed env fuel u s hclosed] at ht
    simp only [Option.some.injEq, Prod.mk.injEq] at ht
    rw [← ht.2]; exact h

theorem run_ticks_ring_inv {env : Env} {fuel : Nat} {u : Bool} (n : Nat) :
    ∀ {s : State} {res : List Bool × State}, s.ring_inv →
      run_ticks env fuel u n s = some res → res.2.ring_inv := by
  induction n with
  | zero =>
    intro s res h hr
    simp only [run_ticks, Option.some.injEq] at hr
    rw [← hr]; exact h
  | succ n ih =>
    intro s res h hr
    obtain ⟨r, s1, rs, ht, hrest, -⟩ := run_ticks_succ hr
    exact @ih s1 (rs, res.2) (tick_ring_inv h ht) hrest

/-- A tick on a container without decode errors that holds the `n` pictures
which fill the ring, on ring views. -/
theorem tick_fill_view {env : Env} {fuel : Nat} {u : Bool} {s s' : State} {r : Bool}
    (v : RingView) (n : Nat) (hopen : s.format_ctx = true) (hv : s.ring = v)
    (hclean : ∀ x ∈ v.reads, clean_read s.videostream s.audiostream x)
    (h1 : 1 ≤ n) (h10 : n ≤ 10) (hr : v.read < 10) (hw : v.write < 10)
    (hn : (v.write + n) % VIDEO_BUFFER_SIZE = v.read)
    (hle : n ≤ v.reads.countP (decodable s.videostream))
    (h : ffmpeg_update_movie_sample env fuel u s = some (r, s')) :
    r = true ∧ s'.format_ctx = true ∧ s'.videostream = s.videostream ∧
    s'.audiostream = s.audiostream ∧
    ∃ rem, (∀ x ∈ rem, clean_read s.videostream s.audiostream x) ∧
      rem.countP (decodable s.videostream) + n = v.reads.countP (decodable s.videostream) ∧
      s'.ring =
        { ops := v.ops ++ pushes v.write n ++
            [RingOp.present v.read (env.gl_defer_yuv_frame v.defer_calls v.read)]
          read := (v.read + 1) % VIDEO_BUFFER_SIZE
          write := v.read
          defer_calls := v.defer_calls + 1
          reads := rem } := by
  obtain ⟨f1, f2, f3, f4, f5⟩ := ring_fields hv
  obtain ⟨hret, hring, hsess⟩ := tick_ring hopen h
  rw [← f5] at hclean hle
  rw [← f2] at hr hn; rw [← f3] at hw hn
  obtain ⟨e1, rem, e2, e3, e4⟩ := (tick_body_clean env s n hclean h1 h10 hr hw hn).2 hle
  rw [f1, f2, f3, f4] at e4
  rw [f5] at e3
  exact ⟨hret.trans e1, (format_ctx_of_session hsess).trans hopen, videostream_of_session hsess,
    audiostream_of_session hsess, rem, e2, e3, hring.trans e4⟩

/-- C5: on an open session with both cursors at 0 and an empty trace, whose
container delivers no decode error and at least 11 decodable video packets,
the first tick pushes 10 pictures into slots 0 to 9 before any presentation,
then makes one presentation request, for slot 0, and leaves the read cursor at
1; the second tick makes the 11th push, into slot 0, and then presents slot 1;
and over any number of ticks no push goes into a slot whose picture was not
yet presented.  Without the frame limiter the ticks always return; with it
they return when time passes, for a timer of at least 1000 counts per second
and a positive frame rate. -/
theorem ring_fills_before_first_presentation (env : Env) (fuel : Nat) (u : Bool) (s : State)
    (hopen : s.format_ctx = true) (hr : s.vbuffer_read = 0) (hw : s.vbuffer_write = 0)
    (htrace : s.trace = [])
    (hclean : ∀ x ∈ s.reads, clean_read s.videostream s.audiostream x)
    (hcount : 11 ≤ s.reads.countP (decodable s.videostream)) :
    (∀ r1 s1, ffmpeg_update_movie_sample env fuel u s = some (r1, s1) →
      r1 = true ∧
      ring_ops s1.trace =
        [RingOp.push 0, RingOp.push 1, RingOp.push 2, RingOp.push 3, RingOp.push 4,
         RingOp.push 5, RingOp.push 6, RingOp.push 7, RingOp.push 8, RingOp.push 9,
         RingOp.present 0 (env.gl_defer_yuv_frame s.defer_calls 0)] ∧
      s1.vbuffer_read = 1 ∧ s1.vbuffer_write = 0) ∧
    (∀ res, run_ticks env fuel u 2 s = some res →
      res.1 = [true, true] ∧
      ring_ops res.2.trace =
        [RingOp.push 0, RingOp.push 1, RingOp.push 2, RingOp.push 3, RingOp.push 4,
         RingOp.push 5, RingOp.push 6, RingOp.push 7, RingOp.push 8, RingOp.push 9,
         RingOp.present 0 (env.gl_defer_yuv_frame s.defer_calls 0),
         RingOp.push 0,
         RingOp.present 1 (env.gl_defer_yuv_frame (s.defer_calls + 1) 1)] ∧
      res.2.vbuffer_read = 2 ∧ res.2.vbuffer_write = 1) ∧
    (∀ n res, run_ticks env fuel u n s = some res → no_overwrite (ring_ops res.2.trace) = true) ∧
    (∀ n, ∃ res, run_ticks env fuel false n s = some res) ∧
    (clock_unbounded env → 1000 ≤ s.timer_freq → 0 < s.movie_fps →
      ∀ n, ∃ fuel' res, run_ticks env fuel' true n s = some res) := by
  have hv0 : s.ring = RingView.mk [] 0 0 s.defer_calls s.reads :=
    ring_eq (by rw [htrace]; rfl) hr hw rfl rfl
  have first : ∀ r1 s1, ffmpeg_update_movie_sample env fuel u s = some (r1, s1) →
      r1 = true ∧ s1.format_ctx = true ∧ s1.videostream = s.videostream ∧
      s1.audiostream = s.audiostream ∧
      ∃ rem, (∀ x ∈ rem, clean_read s.videostream s.audiostream x) ∧
        rem.countP (decodable s.videostream) + 10 = s.reads.countP (decodable s.videostream) ∧
        s1.ring =
          { ops := pushes 0 10 ++ [RingOp.present 0 (env.gl_defer_yuv_frame s.defer_calls 0)]
            read := 1, write := 0, defer_calls := s.defer_calls + 1, reads := rem } := by
    intro r1 s1 t1
    obtain ⟨a1, a2, a3, a4, rem, a5, a6, a7⟩ := tick_fill_view _ 10 hopen hv0 hclean (by decide)
      (by decide) (by simp) (by simp) (by simp [VIDEO_BUFFER_SIZE])
      (by simp only []; omega) t1
    exact ⟨a1, a2, a3, a4, rem, a5, a6, by simpa [VIDEO_BUFFER_SIZE] using a7⟩
  refine ⟨fun r1 s1 t1 => ?_, fun res h => ?_, fun n res h => ?_,
    fun n => run_ticks_no_limiter env fuel n s,
    fun hc htf hfps n => run_ticks_terminates env hc true n s htf hfps⟩
  · obtain ⟨a1, -, -, -, rem, -, -, a7⟩ := first r1 s1 t1
    obtain ⟨g1, g2, g3, -, -⟩ := ring_fields a7
    exact ⟨a1, by rw [g1]; simp [pushes, VIDEO_BUFFER_SIZE], g2, g3⟩
  · obtain ⟨r1, s1, rs1, t1, h1, e1⟩ := run_ticks_succ h
    obtain ⟨r2, s2, rs2, t2, h2, e2⟩ := run_ticks_succ h1
    simp only [run_ticks, Option.some.injEq, Prod.mk.injEq] at h2
    obtain ⟨rfl, rfl⟩ := h2
    simp only at e1 e2
    obtain ⟨a1, a2, a3, a4, rem, a5, a6, a7⟩ := first r1 s1 t1
    rw [← a3, ← a4] at a5
    obtain ⟨c1, -, -, -, rem2, -, -, c7⟩ := tick_fill_view _ 1 a2 a7 a5 (by decide) (by decide)
      (by simp) (by simp) (by simp [VIDEO_BUFFER_SIZE]) (by simp only []; rw [a3]; omega) t2
    obtain ⟨g1, g2, g3, -, -⟩ := ring_fields c7
    refine ⟨by rw [e1, e2, a1, c1], ?_, by rw [g2]; simp [VIDEO_BUFFER_SIZE], g3⟩
    rw [g1]
    simp [pushes, VIDEO_BUFFER_SIZE]
  · have h0 : s.ring_inv := by
      unfold State.ring_inv
      rw [htrace, hr, hw]
      exact ring_inv_nil
    exact (run_ticks_ring_inv n h0 h).1

/-- Witness of `ring_fills_before_first_presentation`: eleven decodable video
packets on an open session. -/
theorem ring_fills_before_first_presentation_witness :
    ∃ res, run_ticks plain_env 0 false 2 (open_session 0 0 (List.replicate 11 (video_read 0)))
        = some res ∧
      res.1 = [true, true] ∧ res.2.vbuffer_read = 2 ∧ res.2.vbuffer_write = 1 ∧
      no_overwrite (ring_ops res.2.trace) = true :=
  match (ring_fills_before_first_presentation plain_env 0 false
      (open_session 0 0 (List.replicate 11 (video_read 0)))
      (by decide) (by decide) (by decide) (by decide) (by decide) (by decide)) with
  | ⟨_, h2, h3, h4, _⟩ =>
    match h4 2 with
    | ⟨res, hres⟩ => ⟨res, hres, (h2 res hres).1, (h2 res hres).2.2.1, (h2 res hres).2.2.2,
        h3 2 res hres⟩

end FFNx
